import Mathlib

set_option maxRecDepth 8192

/-!
Verification development for the AI-provenance prototype.

This file gives a shallow embedding of the repository's provenance
construction, publication and verification logic:

* the hash canonicalizer (SHA-256 over UTF-8 bytes, hex rendered, with and
  without a `0x` marker, matching the two `sha256Hex` helpers in the code);
* parameter canonicalization (`canonicalizeParams`) and `toBytes32` from the
  summarize route;
* the deterministic mock provider (`summarizeMock`) and the mock journal
  generator;
* the summarize (provenance builder), publish, and verify-provenance route
  handlers, with all external effects (network providers, the zk subprocess,
  IPFS add/get, EIP-712 recovery) passed in as explicit oracle functions;
  an oracle returning `none` models the corresponding call throwing.

JavaScript strings are modelled as Lean `String` (code points instead of
UTF-16 units; all relevant data is ASCII), JS string falsiness as emptiness,
and absent JSON fields as `Option`.  SHA-256 itself is implemented over
`Nat` bytes so that concrete digests are computable by the kernel.
-/

namespace AIProof

/-! ## SHA-256 over byte lists -/

/-- Truncation to 32 bits. -/
def w32 (n : Nat) : Nat := n % 4294967296

/-- Right rotation of a 32-bit word. -/
def rotr32 (n x : Nat) : Nat := w32 ((x >>> n) ||| (x <<< (32 - n)))

def sml0 (x : Nat) : Nat := (rotr32 7 x) ^^^ (rotr32 18 x) ^^^ (x >>> 3)

def sml1 (x : Nat) : Nat := (rotr32 17 x) ^^^ (rotr32 19 x) ^^^ (x >>> 10)

def big0 (x : Nat) : Nat := (rotr32 2 x) ^^^ (rotr32 13 x) ^^^ (rotr32 22 x)

def big1 (x : Nat) : Nat := (rotr32 6 x) ^^^ (rotr32 11 x) ^^^ (rotr32 25 x)

def chF (x y z : Nat) : Nat := (x &&& y) ^^^ ((x ^^^ 4294967295) &&& z)

def majF (x y z : Nat) : Nat := (x &&& y) ^^^ (x &&& z) ^^^ (y &&& z)

/-- Largest `r` with `r ^ k ≤ m`, for `r` below `2 ^ 40`, by greedy
bit-by-bit construction. -/
def kthRoot (k m : Nat) : Nat :=
  (List.range 40).reverse.foldl (fun r i => if (r + 2 ^ i) ^ k ≤ m then r + 2 ^ i else r) 0

/-- First 32 fractional bits of the real k-th root of `p`, as a 32-bit word:
the SHA-256 constants are defined this way from the first primes. -/
def fracRoot32 (k p : Nat) : Nat := w32 (kthRoot k (p * 2 ^ (32 * k)))

/-- Primality by trial division; the divisor list covers every `n < 324`. -/
def isPrimeT (n : Nat) : Bool :=
  decide (2 ≤ n) && ([2, 3, 5, 7, 11, 13, 17].all fun d => n == d || decide (n % d ≠ 0))

/-- The 64 SHA-256 round constants: the first 32 fractional bits of the cube
roots of the first 64 primes. -/
def sha256K : List Nat := (((List.range 312).filter isPrimeT).take 64).map (fracRoot32 3)

/-- The SHA-256 initial hash state: the first 32 fractional bits of the
square roots of the first 8 primes. -/
def sha256H0 : List Nat := (((List.range 20).filter isPrimeT).take 8).map (fracRoot32 2)

/-- Big-endian rendering of `v` in `n` bytes. -/
def bytesBE (n v : Nat) : List Nat :=
  (List.range n).map (fun i => (v >>> (8 * (n - 1 - i))) % 256)

/-- Split a list into chunks of size `n`; structural recursion so the kernel
can evaluate it. -/
def chunksAux (n : Nat) : List Nat → List Nat → List (List Nat)
  | [], acc => if acc.isEmpty then [] else [acc.reverse]
  | b :: bs, acc =>
    if acc.length + 1 = n then (acc.reverse ++ [b]) :: chunksAux n bs []
    else chunksAux n bs (b :: acc)

def chunksPos (n : Nat) (l : List Nat) : List (List Nat) := chunksAux n l []

/-- Big-endian 32-bit words of a byte list whose length is a multiple of 4. -/
def toWords (bs : List Nat) : List Nat :=
  (chunksPos 4 bs).map (fun c => c.foldl (fun a b => a * 256 + b) 0)

/-- SHA-256 message-schedule extension from 16 to 64 words. -/
def extendW (w16 : List Nat) : List Nat :=
  (List.range 48).foldl
    (fun w _ =>
      let t := w.length
      w ++ [w32 (sml1 (w.getD (t - 2) 0) + w.getD (t - 7) 0 +
                 sml0 (w.getD (t - 15) 0) + w.getD (t - 16) 0)])
    w16

/-- One SHA-256 round applied to the working state `[a,b,c,d,e,f,g,h]`. -/
def roundStep (st : List Nat) (kw : Nat × Nat) : List Nat :=
  match st with
  | [a, b, c, d, e, f, g, h] =>
    let t1 := w32 (h + big1 e + chF e f g + kw.1 + kw.2)
    let t2 := w32 (big0 a + majF a b c)
    [w32 (t1 + t2), a, b, c, w32 (d + t1), e, f, g]
  | _ => st

/-- Compress one 64-byte block into the hash state. -/
def compress (hs block : List Nat) : List Nat :=
  let w := extendW (toWords block)
  let st := (sha256K.zip w).foldl roundStep hs
  (hs.zip st).map (fun p => w32 (p.1 + p.2))

/-- SHA-256 padding tail for a message of `len` bytes. -/
def padTail (len : Nat) : List Nat :=
  [0x80] ++ List.replicate ((119 - (len % 64)) % 64) 0 ++ bytesBE 8 (8 * len)

/-- The 32 digest bytes of SHA-256 of a byte list. -/
def sha256Digest (msg : List Nat) : List Nat :=
  ((chunksPos 64 (msg ++ padTail msg.length)).foldl compress sha256H0).flatMap (bytesBE 4)

/-- Lowercase hex digit for a nibble. -/
def hexDigit (n : Nat) : Char := if n < 10 then Char.ofNat (48 + n) else Char.ofNat (87 + n)

def byteHex (b : Nat) : List Char := [hexDigit (b / 16), hexDigit (b % 16)]

/-- UTF-8 encoding of a unicode code point. -/
def utf8Enc (c : Nat) : List Nat :=
  if c < 0x80 then [c]
  else if c < 0x800 then [0xC0 + c / 64, 0x80 + c % 64]
  else if c < 0x10000 then [0xE0 + c / 4096, 0x80 + (c / 64) % 64, 0x80 + c % 64]
  else [0xF0 + c / 262144, 0x80 + (c / 4096) % 64, 0x80 + (c / 64) % 64, 0x80 + c % 64]

def utf8Bytes (s : String) : List Nat := s.data.flatMap (fun ch => utf8Enc ch.toNat)

/-- Lowercase hex SHA-256 digest of the UTF-8 bytes of `s`, bare (no marker):
the `sha256Hex` helper of the provider module. -/
def sha256HexRaw (s : String) : String :=
  ⟨(sha256Digest (utf8Bytes s)).flatMap byteHex⟩

/-- Lowercase hex SHA-256 digest with a `0x` marker: the `sha256Hex` helper of
the summarize and verify routes. -/
def sha256Hex (s : String) : String := "0x" ++ sha256HexRaw s

/-- The 32-byte all-zero sentinel hash from `api/types.ts`. -/
def ZERO_HASH : String :=
  "0x0000000000000000000000000000000000000000000000000000000000000000"

/-- FIPS 180-4 test vector: the embedding computes real SHA-256. -/
theorem sha256HexRaw_abc :
    sha256HexRaw "abc" = "ba7816bf8f01cfea414140de5dae2223b00361a396177a9cb410ff61f20015ad" := by
  decide

/-! ## Kernel-evaluable string primitives

Core `String` operations such as `toLower`, `trim`, `startsWith` and `drop`
are position-based and do not reduce in the kernel, so the JS string
operations are modelled on the character lists instead. -/

/-- String.prototype.toLowerCase (per-character, ASCII range). -/
def jsLower (s : String) : String := ⟨s.data.map Char.toLower⟩

/-- startsWith on strings. -/
def strStarts (s pre : String) : Bool := pre.data.isPrefixOf s.data

/-- drop of `n` leading characters. -/
def strDrop (s : String) (n : Nat) : String := ⟨s.data.drop n⟩

/-! ## JSON values and serialization

Only the value shapes the routes actually produce are modelled.  Values of
parameter objects are never interpreted by the code, only carried through and
serialized. -/

inductive JVal where
  | num (n : Int)
  | str (s : String)
  | jbool (b : Bool)
  | jnull
deriving DecidableEq

/-- JSON escaping of one character (JSON.stringify's rules for the characters
that can occur here). -/
def jsonEscapeChar (c : Char) : List Char :=
  if c.toNat = 34 then [Char.ofNat 92, Char.ofNat 34]
  else if c.toNat = 92 then [Char.ofNat 92, Char.ofNat 92]
  else if c.toNat = 10 then [Char.ofNat 92, 'n']
  else if c.toNat = 13 then [Char.ofNat 92, 'r']
  else if c.toNat = 9 then [Char.ofNat 92, 't']
  else if c.toNat = 8 then [Char.ofNat 92, 'b']
  else if c.toNat = 12 then [Char.ofNat 92, 'f']
  else if c.toNat < 32 then
    [Char.ofNat 92, 'u', '0', '0', hexDigit (c.toNat / 16), hexDigit (c.toNat % 16)]
  else [c]

/-- A JSON string literal for `s`. -/
def jsonStr (s : String) : String :=
  ⟨Char.ofNat 34 :: (s.data.flatMap jsonEscapeChar ++ [Char.ofNat 34])⟩

def JVal.stringify : JVal → String
  | .num n => toString n
  | .str s => jsonStr s
  | .jbool b => if b then "true" else "false"
  | .jnull => "null"

/-- JSON.stringify of an object given as an ordered key-value list. -/
def stringifyObj (l : List (String × JVal)) : String :=
  "\x7b" ++ String.intercalate "," (l.map (fun kv => jsonStr kv.1 ++ ":" ++ kv.2.stringify)) ++ "\x7d"

/-- One keyword entry `{ word, count }` as produced by keyword extraction. -/
structure Keyword where
  word : String
  count : Nat
deriving DecidableEq

def stringifyKeyword (k : Keyword) : String :=
  "\x7b\"word\":" ++ jsonStr k.word ++ ",\"count\":" ++ toString k.count ++ "\x7d"

/-- JSON.stringify of a keyword list (array order preserved). -/
def stringifyKeywords (ks : List Keyword) : String :=
  "[" ++ String.intercalate "," (ks.map stringifyKeyword) ++ "]"

/-! ## JavaScript object model

A JS object is an insertion-ordered key-value list without duplicate keys;
assigning to an existing key overwrites in place, assigning a fresh key
appends.  `objFromPairs` is the object built by assigning a sequence of
key-value pairs in order (the semantics of an object literal with spreads). -/

def jsGet (l : List (String × JVal)) (k : String) : Option JVal :=
  (l.find? (fun kv => kv.1 == k)).map (fun kv => kv.2)

def objUpsert (o : List (String × JVal)) (kv : String × JVal) : List (String × JVal) :=
  if o.any (fun x => x.1 == kv.1) then o.map (fun x => if x.1 == kv.1 then kv else x)
  else o ++ [kv]

def objFromPairs (l : List (String × JVal)) : List (String × JVal) :=
  l.foldl objUpsert []

/-- Insert into a list sorted ascending (used to model Array.sort on the
key strings, whose default comparator is lexicographic). -/
def insSorted (k : String) : List String → List String
  | [] => [k]
  | x :: xs => if k ≤ x then k :: x :: xs else x :: insSorted k xs

def sortKeys (l : List String) : List String := l.foldr insSorted []

/-- The default generation parameters merged under the caller's params. -/
def paramDefaults : List (String × JVal) :=
  [("temperature", JVal.num 0), ("top_p", JVal.num 1)]

/-- Rebuild an object with its keys in sorted order (the
`for (const k of Object.keys(base).sort()) sorted[k] = base[k]` loop). -/
def sortedObjOf (base : List (String × JVal)) : List (String × JVal) :=
  (sortKeys (base.map Prod.fst)).filterMap (fun k => (jsGet base k).map (fun v => (k, v)))

/-- The `canonicalizeParams` helper of the summarize route: merge the caller
params over the defaults `temperature: 0, top_p: 1` and rebuild the object
with keys in sorted order. -/
def canonicalizeParams (p : Option (List (String × JVal))) : List (String × JVal) :=
  sortedObjOf (objFromPairs (paramDefaults ++ p.getD []))

/-- The params digest the summarize route computes:
`sha256Hex(JSON.stringify(canonicalizeParams(params)))`, abstracted over the
hash so both the concrete run and hash-generic facts can be stated. -/
def digestParams (H : String → String) (p : Option (List (String × JVal))) : String :=
  H (stringifyObj (canonicalizeParams p))

/-! ## toBytes32 and programHashFromAny (summarize route helpers) -/

def jsIsWS (c : Char) : Bool := c.isWhitespace

/-- String.prototype.trim on a character list. -/
def trimL (cs : List Char) : List Char :=
  ((cs.dropWhile jsIsWS).reverse.dropWhile jsIsWS).reverse

/-- String.prototype.trim. -/
def jsTrim (s : String) : String := ⟨trimL s.data⟩

def sha256Tag : List Char := ['s', 'h', 'a', '2', '5', '6', ':']

def oxTag : List Char := ['0', 'x']

/-- Completion of the `0x` marker when absent. -/
def ensureOxStep (h1 : List Char) : List Char :=
  if !(oxTag.isPrefixOf h1) then oxTag ++ h1 else h1

/-- First two normalization steps of `toBytes32`: replace a `sha256:` tag
with `0x`, else prepend `0x` when absent. -/
def ensureOx (h : List Char) : List Char :=
  ensureOxStep (if sha256Tag.isPrefixOf h then oxTag ++ h.drop 7 else h)

/-- Final two steps of `toBytes32`: left-pad a short body to 64 characters
after the marker, and truncate to 66 characters. -/
def padTake66 (h3 : List Char) : List Char :=
  (if h3.length < 66 then oxTag ++ (List.replicate (64 - (h3.drop 2).length) '0' ++ h3.drop 2)
   else h3).take 66

/-- Character-list core of `toBytes32`: normalize a hex-ish hash to a
`0x`-marked, lowercase, left-padded, 66-character form (longer bodies are
truncated by the final take). -/
def toBytes32L (cs : List Char) : List Char :=
  padTake66 ((ensureOx (trimL cs)).map Char.toLower)

def toBytes32 (s : String) : String := ⟨toBytes32L s.data⟩

/-- The `programHashFromAny` helper: strip a `sha256:` or `0x` marker from a
program hash value; placeholders map to the zero sentinel. -/
def programHashFromAny (value : String) : String :=
  if value == "" then ZERO_HASH
  else if value == "<FILLED_BY_HOST>" then ZERO_HASH
  else if strStarts value "sha256:" then strDrop value 7
  else if strStarts value "0x" then strDrop value 2
  else value

/-! ## The mock provider (api/providers.ts)

`summarizeMock` is the deterministic in-process provider.  `wordRunsAux`
models `text.split(/\\W+/)` up to empty fragments, which the subsequent
length filter removes in every use site. -/

def isWordChar (c : Char) : Bool := c.isAlphanum || c == '_'

def wordRunsAux : List Char → List Char → List String
  | [], acc => if acc.isEmpty then [] else [⟨acc.reverse⟩]
  | c :: cs, acc =>
    if isWordChar c then wordRunsAux cs (c :: acc)
    else if acc.isEmpty then wordRunsAux cs []
    else (⟨acc.reverse⟩ : String) :: wordRunsAux cs []

/-- Lowercased word tokens of length > 3, shared by the mock provider and the
mock journal generator. -/
def longWordTokens (text : String) : List String :=
  (wordRunsAux (jsLower text).data []).filter (fun w => 3 < w.length)

/-- Frequency counting into an insertion-ordered JS object of counts. -/
def countUpsert (acc : List (String × Nat)) (w : String) : List (String × Nat) :=
  if acc.any (fun x => x.1 == w) then acc.map (fun x => if x.1 == w then (x.1, x.2 + 1) else x)
  else acc ++ [(w, 1)]

/-- Stable insertion for descending-by-count order: the comparator
`(a, b) => b.count - a.count` under JS's stable Array.sort. -/
def insDesc (x : String × Nat) : List (String × Nat) → List (String × Nat)
  | [] => [x]
  | y :: ys => if y.2 < x.2 then x :: y :: ys else y :: insDesc x ys

def sortCountDesc (l : List (String × Nat)) : List (String × Nat) :=
  l.foldl (fun acc x => insDesc x acc) []

/-- Result shape of a provider call (`AIModelResponse` without the unused
params field). -/
structure ProviderRes where
  summary : String
  model : String
  modelHash : String
deriving DecidableEq

/-- The deterministic mock provider `summarizeMock`: top-5 frequent long
words.  Its model hash is the bare (unmarked) SHA-256 of "mock-local". -/
def summarizeMock (text : String) : ProviderRes :=
  let counts := (longWordTokens text).foldl countUpsert []
  let top := ((sortCountDesc counts).take 5).map Prod.fst
  { summary := "Key topics: " ++ String.intercalate ", " top
    model := "mock-local"
    modelHash := sha256HexRaw "mock-local" }

/-! ## Data model (api/types.ts) -/

/-- The flattened `ContentProvenanceValue` struct.  Fields that can be
missing or empty in a JSON payload are plain strings with "" for absent,
matching JS falsiness on strings. -/
structure Prov where
  version : Nat
  modelId : String
  modelHash : String
  promptHash : String
  outputHash : String
  paramsHash : String
  contentCid : String
  timestamp : Nat
  attestationStrategy : String
  keywordsHash : String
  programHash : String
  journalCid : String
  proofCid : String
deriving DecidableEq

/-- A published signed-provenance envelope as the verify route reads it.
The domain and type schema are abstract tags here; the verifier only threads
them to signature recovery. -/
structure Envelope where
  provenance : Option Prov
  signature : Option String
  signer : Option String
  domain : Option String
  types : Option String
  promptCid : Option String
deriving DecidableEq

/-- A journal object as fetched by the verifier; only its `keywords` field is
consumed. -/
structure Journal where
  keywords : Option (List Keyword)
deriving DecidableEq

/-- JS truthiness of an optional string field. -/
def optTruthy : Option String → Bool
  | none => false
  | some s => !(s == "")

/-- The `a || dflt` idiom on an optional string field. -/
def jsOr (a : Option String) (dflt : String) : String :=
  match a with
  | some s => if s == "" then dflt else s
  | none => dflt

/-! ## The verify-provenance route

All external calls are oracles: `getFile`/`getJson` return `none` when the
fetch throws, and `recover` is the residual of ethers' `verifyTypedData`
after its signature parse, applied to (domain tag, types tag, record,
signature). -/

structure VOracles where
  recover : String → String → Prov → String → Option String
  getFile : String → Option String
  getJson : String → Option Journal

def isHexChar (c : Char) : Bool :=
  c.isDigit || ('a' ≤ c && c ≤ 'f') || ('A' ≤ c && c ≤ 'F')

/-- Shape check of ethers' signature parse: a 0x-marked hex string of 65 or
64 bytes.  Anything else (in particular the literal "unsigned") throws before
recovery is attempted. -/
def isHexSigStr (s : String) : Bool :=
  strStarts s "0x" && (s.data.drop 2).all isHexChar && (s.length == 132 || s.length == 130)

/-- Model of `verifyTypedData(dom, tps, value, sig)`: parse the signature
shape, then defer to the recovery oracle (which may itself report a throw as
`none`). -/
def verifyTypedDataE (rec : String → String → Prov → String → Option String)
    (dom tps : String) (prov : Prov) (sig : String) : Option String :=
  if isHexSigStr sig then rec dom tps prov sig else none

def defaultDomainTag : String := "AIProof:default-domain"

def defaultTypesTag : String := "AIProof:default-types"

/-- Structural sanity issues: one `missing_<f>` per falsy required field. -/
def structuralIssues (prov : Prov) : List String :=
  (if prov.promptHash == "" then ["missing_promptHash"] else []) ++
  (if prov.outputHash == "" then ["missing_outputHash"] else []) ++
  (if prov.paramsHash == "" then ["missing_paramsHash"] else []) ++
  (if prov.contentCid == "" then ["missing_contentCid"] else [])

/-- The verify request body (`ReqBody`). -/
structure VerifyReq where
  signedProvenanceCid : String
  prompt : Option String
  journalCid : Option String
  proofCid : Option String
  expectKeywords : Bool
  includeContent : Bool
deriving DecidableEq

/-- Prompt recomputation: issue on hash mismatch when a prompt is supplied,
warning when it is not. -/
def promptCheck (body : VerifyReq) (prov : Prov) : List String × List String :=
  match body.prompt with
  | some p =>
    if p == "" then ([], ["no_prompt_supplied"])
    else
      (if jsLower (sha256Hex p) ≠ jsLower prov.promptHash then ["prompt_hash_mismatch"] else [], [])
  | none => ([], ["no_prompt_supplied"])

def expectKeywordsIssues (body : VerifyReq) (prov : Prov) : List String :=
  if body.expectKeywords && ((prov.keywordsHash == "") || (prov.keywordsHash == ZERO_HASH))
  then ["expected_keywords_missing"] else []

/-- Warnings for tamper-test overrides of the journal/proof identifiers. -/
def overrideWarnings (body : VerifyReq) (prov : Prov) : List String :=
  (match body.journalCid with
   | some j => if j ≠ "" ∧ j ≠ prov.journalCid then ["journalCid_override_used"] else []
   | none => []) ++
  (match body.proofCid with
   | some pc => if pc ≠ "" ∧ pc ≠ prov.proofCid then ["proofCid_override_used"] else []
   | none => [])

def programHashWarnings (prov : Prov) : List String :=
  if !((prov.programHash != "") && (prov.programHash != ZERO_HASH))
     && strStarts prov.attestationStrategy "zk"
  then ["program_hash_not_bound"] else []

/-- Signature section: missing signature, recovery failure, or recovered
signer differing (case-insensitively) from the claimed one.  Returns its
issues and the recovered signer. -/
def signatureCheck (o : VOracles) (env : Envelope) (prov : Prov) : List String × Option String :=
  match env.signature with
  | none => (["missing_signature"], none)
  | some s =>
    if s == "" then (["missing_signature"], none)
    else
      let dom := jsOr env.domain defaultDomainTag
      let tps := jsOr env.types defaultTypesTag
      match verifyTypedDataE o.recover dom tps prov s with
      | none => (["signature_invalid"], none)
      | some r =>
        (match env.signer with
         | some cs => if cs ≠ "" ∧ jsLower r ≠ jsLower cs then ["signature_recover_mismatch"] else []
         | none => [], some r)

/-- Journal recomputation inside the deep-content block (its own try, so a
journal fetch throw is caught locally as `journal_fetch_failed`). -/
def journalChecks (o : VOracles) (prov : Prov) : List String × List String :=
  if (prov.journalCid != "") && (prov.keywordsHash != "") && (prov.keywordsHash != ZERO_HASH) then
    match o.getJson prov.journalCid with
    | none => (["journal_fetch_failed"], [])
    | some journal =>
      match journal.keywords with
      | some kws =>
        (if jsLower (sha256Hex (stringifyKeywords kws)) ≠ jsLower prov.keywordsHash
         then ["keywords_hash_mismatch"] else [], [])
      | none => (["journal_missing_keywords"], [])
  else if strStarts prov.attestationStrategy "zk"
          && ((prov.keywordsHash == "") || (prov.keywordsHash == ZERO_HASH)) then
    ([], ["zk_keywords_not_bound"])
  else ([], [])

/-- Output recomputation from the fetched content; `none` when the fetch
throws. -/
def contentStep1 (o : VOracles) (prov : Prov) : Option (List String) :=
  if prov.contentCid != "" then
    match o.getFile prov.contentCid with
    | none => none
    | some content =>
      some (if jsLower (sha256Hex content) ≠ jsLower prov.outputHash
            then ["output_hash_mismatch"] else [])
  else some []

/-- Stored-prompt recomputation from the envelope's promptCid; `none` when
the fetch throws. -/
def contentStep2 (o : VOracles) (env : Envelope) (prov : Prov) : Option (List String) :=
  match env.promptCid with
  | some pc =>
    if pc == "" then some []
    else
      match o.getFile pc with
      | none => none
      | some sp =>
        some (if jsLower (sha256Hex sp) ≠ jsLower prov.promptHash
              then ["stored_prompt_hash_mismatch"] else [])
  | none => some []

/-- The optional deep-content section: output recomputation, stored-prompt
recomputation, journal recomputation, and the unconditional proof warning.
A `getFile` throw aborts the rest of the section, keeping the issues pushed
so far and adding `content_fetch_failed`. -/
def contentChecks (o : VOracles) (body : VerifyReq) (env : Envelope) (prov : Prov) :
    List String × List String :=
  if body.includeContent then
    match contentStep1 o prov with
    | none => ([], ["content_fetch_failed"])
    | some i1 =>
      match contentStep2 o env prov with
      | none => (i1, ["content_fetch_failed"])
      | some i2 =>
        let jc := journalChecks o prov
        let w4 := if prov.proofCid != "" then ["proof_unverified"] else []
        (i1 ++ i2 ++ jc.1, jc.2 ++ w4)
  else ([], [])

/-- The verify route's report (the response fields the claims are about). -/
structure Report where
  ok : Bool
  issues : List String
  warnings : List String
  respJournalCid : Option String
  respProofCid : Option String
  recoveredSigner : Option String
  signerEcho : Option String
deriving DecidableEq

/-- The `a || b || ''` idiom for the effective journal/proof identifiers. -/
def jsOr2 (a : Option String) (b : String) : String :=
  match a with
  | some s => if s == "" then b else s
  | none => b

/-- The body of the verify-provenance POST handler after the envelope has
been fetched and found to contain a provenance object.  Issues and warnings
are concatenated in the order the handler pushes them. -/
def verifyCore (o : VOracles) (body : VerifyReq) (env : Envelope) (prov : Prov) : Report :=
  let i0 := structuralIssues prov
  let pw := promptCheck body prov
  let i2 := expectKeywordsIssues body prov
  let w2 := overrideWarnings body prov
  let w3 := programHashWarnings prov
  let sc := signatureCheck o env prov
  let cc := contentChecks o body env prov
  let issues := i0 ++ pw.1 ++ i2 ++ sc.1 ++ cc.1
  let warnings := pw.2 ++ w2 ++ w3 ++ cc.2
  let effJournal := jsOr2 body.journalCid prov.journalCid
  let effProof := jsOr2 body.proofCid prov.proofCid
  { ok := issues.isEmpty
    issues := issues
    warnings := warnings
    respJournalCid := if effJournal == "" then none else some effJournal
    respProofCid := if effProof == "" then none else some effProof
    recoveredSigner := sc.2
    signerEcho := env.signer }

inductive VerifyErr where
  | missingCid
  | invalidEnvelope
deriving DecidableEq

/-- The verify-provenance POST handler: require the cid, fetch the envelope
(`none` models both a fetch throw and a missing provenance payload, each of
which yields an error response and no report), then run the checks. -/
def verifyPOST (o : VOracles) (fetchEnv : String → Option Envelope) (body : VerifyReq) :
    Except VerifyErr Report :=
  if body.signedProvenanceCid == "" then .error .missingCid
  else
    match fetchEnv body.signedProvenanceCid with
    | none => .error .invalidEnvelope
    | some env =>
      match env.provenance with
      | none => .error .invalidEnvelope
      | some prov => .ok (verifyCore o body env prov)

/-! ## The summarize route (provenance builder)

The route is parameterized over the hash `H` standing for its local
`sha256Hex`; `sha256Hex` itself is the concrete instantiation.  Oracles:
`net` for the network providers behind `summarizeWithProvider` (the mock
provider is in-repo and modelled concretely), `addFile` for `addFile`
(`none` = throw), `safeAdd` for `safeAddFile` (already catch-wrapped:
`none` = null), `realZk` for `runRealZK` (`none` = rejected promise). -/

/-- A journal parsed back from the zk host's output file. -/
structure ZkJournal where
  keywords : Option (List Keyword)
  programHash : Option String
deriving DecidableEq

/-- The resolved value of `runRealZK`. -/
structure ZkRealRes where
  success : Bool
  journalData : Option ZkJournal
  proofBytes : Option String
deriving DecidableEq

structure BOracles where
  net : String → Option String → String → Option ProviderRes
  addFile : String → Option String
  safeAdd : String → Option String
  realZk : Option ZkRealRes

/-- Environment flags read by the route. -/
structure BEnv where
  zkEnabled : Bool
  mockZk : Bool
deriving DecidableEq

/-- The summarize request body after JSON destructuring defaults. -/
structure SBody where
  text : String
  signer : Option String
  provider : Option String
  model : Option String
  useZk : Bool
  params : Option (List (String × JVal))

/-- Dispatcher `summarizeWithProvider`: the mock provider runs in-process and
cannot throw; the four network providers go through the `net` oracle; an
unknown provider name throws. -/
def summarizeWithProviderM (o : BOracles) (provider : String) (text : String)
    (model : Option String) : Option ProviderRes :=
  if provider == "mock" then some (summarizeMock text)
  else if provider == "ollama" || provider == "openai" || provider == "anthropic"
       || provider == "together" then o.net provider model text
  else none

/-- The mock journal produced by `generateMockJournal`: top-10 frequent long
words plus hashes computed with the route's hash. -/
structure MockJournal where
  keywords : List Keyword
  programHash : String
  inputHash : String
  outputHash : String

def generateMockJournal (H : String → String) (input : String) : MockJournal :=
  let counts := (longWordTokens input).foldl countUpsert []
  let keywords := ((sortCountDesc counts).take 10).map (fun kv => Keyword.mk kv.1 kv.2)
  { keywords := keywords
    programHash := H "mock_program_v1"
    inputHash := H input
    outputHash := H (stringifyKeywords keywords) }

def stringifyMockJournal (j : MockJournal) : String :=
  "\x7b\"keywords\":" ++ stringifyKeywords j.keywords ++
  ",\"programHash\":" ++ jsonStr j.programHash ++
  ",\"inputHash\":" ++ jsonStr j.inputHash ++
  ",\"outputHash\":" ++ jsonStr j.outputHash ++ "\x7d"

def stringifyZkJournal (j : ZkJournal) : String :=
  "\x7b\"keywords\":" ++ (match j.keywords with
                          | some ks => stringifyKeywords ks
                          | none => "null") ++
  ",\"programHash\":" ++ (match j.programHash with
                          | some p => jsonStr p
                          | none => "null") ++ "\x7d"

inductive ZkMode where
  | disabled
  | real
  | mock
  | failed
deriving DecidableEq

/-- The intermediate zk-section state of the route. -/
structure ZkCompute where
  programHash : String
  keywordsHash : String
  journalCid : String
  proofCid : String
  mode : ZkMode
  warnings : List String
deriving DecidableEq

/-- The zk section of the summarize route: mock journal, real host run, or
nothing, with its defaulted hashes, stored artifacts and warnings. -/
def zkSection (H : String → String) (o : BOracles) (env : BEnv) (useZk : Bool)
    (providerOutput : String) : ZkCompute :=
  if !useZk then ⟨ZERO_HASH, ZERO_HASH, "", "", .disabled, []⟩
  else
    let forceMock := env.mockZk || !env.zkEnabled
    if forceMock then
      let mock := generateMockJournal H providerOutput
      let j := (o.safeAdd (stringifyMockJournal mock)).getD ""
      let p := (o.safeAdd "mock-proof").getD ""
      ⟨mock.programHash, H (stringifyKeywords mock.keywords), j, p, .mock, []⟩
    else
      match o.realZk with
      | none => ⟨ZERO_HASH, ZERO_HASH, "", "", .failed, ["zk_exec_error", "zk_failed"]⟩
      | some real =>
        if real.success then
          match real.journalData with
          | some journal =>
            let kws := journal.keywords.getD []
            let keywordsHash := H (stringifyKeywords kws)
            let programHash :=
              match journal.programHash with
              | some ph =>
                if ph ≠ "" ∧ ph ≠ "<FILLED_BY_HOST>" then toBytes32 (programHashFromAny ph)
                else ZERO_HASH
              | none => ZERO_HASH
            let j := (o.safeAdd (stringifyZkJournal journal)).getD ""
            let p := (o.safeAdd (real.proofBytes.getD "")).getD ""
            ⟨programHash, keywordsHash, j, p, .real, []⟩
          | none => ⟨ZERO_HASH, ZERO_HASH, "", "", .failed, ["zk_failed"]⟩
        else ⟨ZERO_HASH, ZERO_HASH, "", "", .failed, ["zk_failed"]⟩

/-- The zk part of the unsigned response. -/
structure ZkOut where
  mode : ZkMode
  journalCid : String
  proofCid : String
  warnings : List String
deriving DecidableEq

/-- The route's successful output: the unsigned provenance record plus the
surrounding response fields; `warnings` is the route-local warnings list
(surfaced in the response only inside `zk`). -/
structure SummarizeOut where
  provenance : Prov
  promptCid : Option String
  providerOutput : String
  zk : Option ZkOut
  warnings : List String
deriving DecidableEq

inductive SErr where
  | badRequest (msg : String)
  | internal
deriving DecidableEq

/-- The summarize POST handler.  Provider failure falls back to the mock
provider with a warning rather than failing; a throwing `addFile` for the
content is the only unabsorbed failure and yields the 500 error. -/
def summarizeCore (H : String → String) (o : BOracles) (env : BEnv) (now : Nat)
    (body : SBody) : Except SErr SummarizeOut :=
  if jsTrim body.text == "" then .error (.badRequest "Empty text")
  else if (body.signer.getD "unknown") == "" then .error (.badRequest "Missing signer")
  else
    let provider := body.provider.getD "mock"
    let pw : ProviderRes × List String :=
      match summarizeWithProviderM o provider body.text body.model with
      | some r => (r, [])
      | none => (summarizeMock body.text, ["provider_failed_fallback_mock"])
    let psd := pw.1
    let paramsHash := H (stringifyObj (canonicalizeParams body.params))
    let promptHash := H body.text
    let providerOutput := psd.summary
    let outputHash := H providerOutput
    let z := zkSection H o env body.useZk providerOutput
    let warnings := pw.2 ++ z.warnings
    match o.addFile providerOutput with
    | none => .error .internal
    | some contentCid =>
      let promptCid := o.addFile body.text
      let strategy :=
        if body.useZk then
          match z.mode with
          | .real => "zk-keywords"
          | .mock => "zk-keywords-mock"
          | _ => "none"
        else "none"
      let prov : Prov :=
        { version := 1
          modelId := psd.model
          modelHash := psd.modelHash
          promptHash := promptHash
          outputHash := outputHash
          paramsHash := paramsHash
          contentCid := contentCid
          timestamp := now
          attestationStrategy := strategy
          keywordsHash := z.keywordsHash
          programHash := if z.programHash == ZERO_HASH then ZERO_HASH else z.programHash
          journalCid := z.journalCid
          proofCid := z.proofCid }
      .ok { provenance := prov
            promptCid := promptCid
            providerOutput := providerOutput
            zk := if body.useZk then some ⟨z.mode, z.journalCid, z.proofCid, warnings⟩ else none
            warnings := warnings }

/-! ## The publish route -/

structure PublishBody where
  provenance : Option Prov
  signature : Option String
  signer : Option String
  promptCid : Option String
deriving DecidableEq

/-- The envelope the publish route persists. -/
structure PubEnvelope where
  provenance : Prov
  signature : String
  signer : String
  createdAt : Nat
  promptCid : Option String
deriving DecidableEq

inductive PubErr where
  | invalid (msg : String)
  | storeFailed
deriving DecidableEq

structure PubOk where
  signedProvenanceCid : String
  proofCid : Option String
  journalCid : Option String
deriving DecidableEq

/-- The `body.promptCid || undefined` normalization of the persisted
envelope's promptCid. -/
def normPromptCid : Option String → Option String
  | some p => if p == "" then none else some p
  | none => none

/-- The publish POST handler: structural validation only, then persist; no
signature recovery is involved anywhere. -/
def publishPOST (addJson : PubEnvelope → Option String) (now : Nat) (body : PublishBody) :
    Except PubErr PubOk :=
  match body.provenance with
  | none => .error (.invalid "Missing provenance, signature or signer")
  | some prov =>
    if !(optTruthy body.signature) || !(optTruthy body.signer) then
      .error (.invalid "Missing provenance, signature or signer")
    else if prov.version ≠ 1 then .error (.invalid "Unsupported version")
    else if prov.modelId == "" then .error (.invalid "Missing field modelId")
    else if prov.promptHash == "" then .error (.invalid "Missing field promptHash")
    else if prov.outputHash == "" then .error (.invalid "Missing field outputHash")
    else if prov.paramsHash == "" then .error (.invalid "Missing field paramsHash")
    else if prov.contentCid == "" then .error (.invalid "Missing field contentCid")
    else
      match addJson { provenance := prov
                      signature := body.signature.getD ""
                      signer := body.signer.getD ""
                      createdAt := now
                      promptCid := normPromptCid body.promptCid } with
      | none => .error .storeFailed
      | some cid =>
        .ok { signedProvenanceCid := cid
              proofCid := if prov.proofCid == "" then none else some prov.proofCid
              journalCid := if prov.journalCid == "" then none else some prov.journalCid }

/-! ## Shape of toBytes32 (claim C9) -/

theorem ox_isPrefixOf_iff (l : List Char) :
    oxTag.isPrefixOf l = true ↔ ∃ t, l = '0' :: 'x' :: t := by
  cases l with
  | nil => simp [oxTag, List.isPrefixOf]
  | cons a l' =>
    cases l' with
    | nil => simp [oxTag, List.isPrefixOf]
    | cons b t =>
      constructor
      · intro h
        simp only [oxTag, List.isPrefixOf, Bool.and_eq_true, beq_iff_eq] at h
        exact ⟨t, by rw [← h.1, ← h.2.1]⟩
      · rintro ⟨t', ht⟩
        cases ht
        simp [oxTag, List.isPrefixOf]

theorem ensureOxStep_shape (h : List Char) : ∃ t, ensureOxStep h = '0' :: 'x' :: t := by
  unfold ensureOxStep
  by_cases hox : oxTag.isPrefixOf h = true
  · obtain ⟨t, ht⟩ := (ox_isPrefixOf_iff h).mp hox
    rw [hox, Bool.not_true, if_neg (by exact Bool.false_ne_true)]
    exact ⟨t, ht⟩
  · have hf : oxTag.isPrefixOf h = false := by
      cases hb : oxTag.isPrefixOf h
      · rfl
      · exact absurd hb hox
    rw [hf, Bool.not_false, if_pos rfl]
    exact ⟨h, rfl⟩

theorem ensureOx_shape (h : List Char) : ∃ t, ensureOx h = '0' :: 'x' :: t :=
  ensureOxStep_shape _

theorem padTake66_shape (t' : List Char) :
    (padTake66 ('0' :: 'x' :: t')).length = 66 ∧
    (padTake66 ('0' :: 'x' :: t')).take 2 = ['0', 'x'] := by
  unfold padTake66
  by_cases hlen : ('0' :: 'x' :: t').length < 66
  · rw [if_pos hlen]
    have hdrop : ('0' :: 'x' :: t').drop 2 = t' := rfl
    rw [hdrop]
    have hlt : t'.length < 64 := by
      simp only [List.length_cons] at hlen; omega
    have hshape : oxTag ++ (List.replicate (64 - t'.length) '0' ++ t') =
        '0' :: 'x' :: (List.replicate (64 - t'.length) '0' ++ t') := rfl
    rw [hshape]
    have hplen : ('0' :: 'x' :: (List.replicate (64 - t'.length) '0' ++ t')).length = 66 := by
      simp only [List.length_cons, List.length_append, List.length_replicate]
      omega
    constructor
    · rw [List.length_take, hplen]
      exact Nat.min_self 66
    · rw [List.take_take]
      rfl
  · rw [if_neg hlen]
    have hge : 66 ≤ t'.length + 2 := by
      have := Nat.le_of_not_lt hlen
      simpa using this
    constructor
    · rw [List.length_take]
      simp only [List.length_cons]
      omega
    · rw [List.take_take]
      rfl

theorem toBytes32L_shape (cs : List Char) :
    (toBytes32L cs).length = 66 ∧ (toBytes32L cs).take 2 = ['0', 'x'] := by
  unfold toBytes32L
  obtain ⟨t, ht⟩ := ensureOx_shape (trimL cs)
  rw [ht]
  have hmap : ('0' :: 'x' :: t).map Char.toLower = '0' :: 'x' :: t.map Char.toLower := by
    have hlow0 : Char.toLower '0' = '0' := by decide
    have hlowx : Char.toLower 'x' = 'x' := by decide
    simp [hlow0, hlowx]
  rw [hmap]
  exact padTake66_shape _

/-- C9: `toBytes32` is total and always yields a 66-character string whose
first two characters are the `0x` marker; the trimmed input has a `sha256:`
tag replaced by (or a missing marker completed to) `0x`, is lowercased,
left-padded to 64 body characters, and a longer body is truncated by the
final take rather than rejected. -/
theorem toBytes32_total_shape (s : String) :
    (toBytes32 s).length = 66 ∧ (toBytes32 s).data.take 2 = ['0', 'x'] := by
  have h := toBytes32L_shape s.data
  exact ⟨h.1, h.2⟩

/-! ## Shared facts about the verify route -/

theorem verifyCore_issues (o : VOracles) (body : VerifyReq) (env : Envelope) (prov : Prov) :
    (verifyCore o body env prov).issues =
      structuralIssues prov ++ (promptCheck body prov).1 ++ expectKeywordsIssues body prov ++
      (signatureCheck o env prov).1 ++ (contentChecks o body env prov).1 := rfl

theorem verifyCore_warnings (o : VOracles) (body : VerifyReq) (env : Envelope) (prov : Prov) :
    (verifyCore o body env prov).warnings =
      (promptCheck body prov).2 ++ overrideWarnings body prov ++ programHashWarnings prov ++
      (contentChecks o body env prov).2 := rfl

theorem verifyCore_ok (o : VOracles) (body : VerifyReq) (env : Envelope) (prov : Prov) :
    (verifyCore o body env prov).ok = (verifyCore o body env prov).issues.isEmpty := rfl

theorem ok_false_of_mem_issues {o : VOracles} {body : VerifyReq} {env : Envelope} {prov : Prov}
    {x : String} (hx : x ∈ (verifyCore o body env prov).issues) :
    (verifyCore o body env prov).ok = false := by
  rw [verifyCore_ok]
  rcases h : (verifyCore o body env prov).issues.isEmpty with _ | _
  · rfl
  · rw [List.isEmpty_iff] at h
    rw [h] at hx
    cases hx

theorem mem_issues_of_mem_sig {o : VOracles} {body : VerifyReq} {env : Envelope} {prov : Prov}
    {x : String} (hx : x ∈ (signatureCheck o env prov).1) :
    x ∈ (verifyCore o body env prov).issues := by
  rw [verifyCore_issues]
  simp only [List.mem_append]
  exact Or.inl (Or.inr hx)

theorem sigCheck_missing {o : VOracles} {env : Envelope} {prov : Prov}
    (h : optTruthy env.signature = false) :
    signatureCheck o env prov = (["missing_signature"], none) := by
  cases hs : env.signature with
  | none => simp [signatureCheck, hs]
  | some s =>
    rw [hs] at h
    simp only [optTruthy, Bool.not_eq_false'] at h
    have hs' : s = "" := by simpa using h
    simp [signatureCheck, hs, hs']

theorem sigCheck_invalid {o : VOracles} {env : Envelope} {prov : Prov} {s : String}
    (hs : env.signature = some s) (hne : s ≠ "")
    (hrec : verifyTypedDataE o.recover (jsOr env.domain defaultDomainTag)
      (jsOr env.types defaultTypesTag) prov s = none) :
    signatureCheck o env prov = (["signature_invalid"], none) := by
  simp [signatureCheck, hs, hne, hrec]

theorem sigCheck_mismatch {o : VOracles} {env : Envelope} {prov : Prov} {s r cs : String}
    (hs : env.signature = some s) (hne : s ≠ "")
    (hrec : verifyTypedDataE o.recover (jsOr env.domain defaultDomainTag)
      (jsOr env.types defaultTypesTag) prov s = some r)
    (hcs : env.signer = some cs) (hcne : cs ≠ "") (hmis : jsLower r ≠ jsLower cs) :
    signatureCheck o env prov = (["signature_recover_mismatch"], some r) := by
  simp [signatureCheck, hs, hne, hrec, hcs, hcne, hmis]

/-- C1: in the verify route, a missing signature yields issue
`missing_signature`, a failing recovery yields `signature_invalid`, and a
recovered signer differing case-insensitively from the claimed one yields
`signature_recover_mismatch`; in each case the report's `ok` is false. -/
theorem signature_issues_force_untrusted (o : VOracles) (body : VerifyReq) (env : Envelope)
    (prov : Prov) :
    (optTruthy env.signature = false →
      "missing_signature" ∈ (verifyCore o body env prov).issues ∧
      (verifyCore o body env prov).ok = false) ∧
    (∀ s, env.signature = some s → s ≠ "" →
      verifyTypedDataE o.recover (jsOr env.domain defaultDomainTag)
        (jsOr env.types defaultTypesTag) prov s = none →
      "signature_invalid" ∈ (verifyCore o body env prov).issues ∧
      (verifyCore o body env prov).ok = false) ∧
    (∀ s r cs, env.signature = some s → s ≠ "" →
      verifyTypedDataE o.recover (jsOr env.domain defaultDomainTag)
        (jsOr env.types defaultTypesTag) prov s = some r →
      env.signer = some cs → cs ≠ "" → jsLower r ≠ jsLower cs →
      "signature_recover_mismatch" ∈ (verifyCore o body env prov).issues ∧
      (verifyCore o body env prov).ok = false) := by
  refine ⟨?_, ?_, ?_⟩
  · intro h
    have hmem : "missing_signature" ∈ (verifyCore o body env prov).issues :=
      mem_issues_of_mem_sig (by rw [sigCheck_missing h]; exact List.mem_singleton.mpr rfl)
    exact ⟨hmem, ok_false_of_mem_issues hmem⟩
  · intro s hs hne hrec
    have hmem : "signature_invalid" ∈ (verifyCore o body env prov).issues :=
      mem_issues_of_mem_sig (by rw [sigCheck_invalid hs hne hrec]; exact List.mem_singleton.mpr rfl)
    exact ⟨hmem, ok_false_of_mem_issues hmem⟩
  · intro s r cs hs hne hrec hcs hcne hmis
    have hmem : "signature_recover_mismatch" ∈ (verifyCore o body env prov).issues :=
      mem_issues_of_mem_sig
        (by rw [sigCheck_mismatch hs hne hrec hcs hcne hmis]; exact List.mem_singleton.mpr rfl)
    exact ⟨hmem, ok_false_of_mem_issues hmem⟩

/-! Concrete fixtures for witnesses and counterexamples. -/

def sampleProv : Prov :=
  { version := 1
    modelId := "mock-local"
    modelHash := ""
    promptHash := "0xaaaaaaaaaaaaaaaaaaaaaaaaaaaaaaaaaaaaaaaaaaaaaaaaaaaaaaaaaaaaaaaa"
    outputHash := "0xbbbbbbbbbbbbbbbbbbbbbbbbbbbbbbbbbbbbbbbbbbbbbbbbbbbbbbbbbbbbbbbb"
    paramsHash := "0xcccccccccccccccccccccccccccccccccccccccccccccccccccccccccccccccc"
    contentCid := "QmContent"
    timestamp := 0
    attestationStrategy := "none"
    keywordsHash := ZERO_HASH
    programHash := ZERO_HASH
    journalCid := ""
    proofCid := "" }

def sampleBody : VerifyReq :=
  { signedProvenanceCid := "QmEnvelope"
    prompt := none
    journalCid := none
    proofCid := none
    expectKeywords := false
    includeContent := false }

def sampleOr : VOracles :=
  { recover := fun _ _ _ _ => none
    getFile := fun _ => none
    getJson := fun _ => none }

def envNoSig : Envelope :=
  { provenance := some sampleProv
    signature := none
    signer := some "0xSigner"
    domain := none
    types := none
    promptCid := none }

def envBadSig : Envelope :=
  { provenance := some sampleProv
    signature := some "nothex"
    signer := some "0xSigner"
    domain := none
    types := none
    promptCid := none }

/-- A 65-byte hex signature string (132 characters with the marker). -/
def wellFormedSig : String :=
  "0xababababababababababababababababababababababababababababababababababababababababababababababababababababababababababababababab1c"

def recoverConst : VOracles :=
  { recover := fun _ _ _ _ => some "0xAAAA"
    getFile := fun _ => none
    getJson := fun _ => none }

def envGoodSigWrongSigner : Envelope :=
  { provenance := some sampleProv
    signature := some wellFormedSig
    signer := some "0xBBBB"
    domain := none
    types := none
    promptCid := none }

set_option maxRecDepth 8192 in
theorem signature_issues_force_untrusted_witness :
    ("missing_signature" ∈ (verifyCore sampleOr sampleBody envNoSig sampleProv).issues ∧
      (verifyCore sampleOr sampleBody envNoSig sampleProv).ok = false) ∧
    ("signature_invalid" ∈ (verifyCore sampleOr sampleBody envBadSig sampleProv).issues ∧
      (verifyCore sampleOr sampleBody envBadSig sampleProv).ok = false) ∧
    ("signature_recover_mismatch" ∈
        (verifyCore recoverConst sampleBody envGoodSigWrongSigner sampleProv).issues ∧
      (verifyCore recoverConst sampleBody envGoodSigWrongSigner sampleProv).ok = false) := by
  refine ⟨?_, ?_, ?_⟩
  · exact (signature_issues_force_untrusted sampleOr sampleBody envNoSig sampleProv).1 (by decide)
  · exact (signature_issues_force_untrusted sampleOr sampleBody envBadSig sampleProv).2.1
      "nothex" rfl (by decide) (by decide)
  · exact (signature_issues_force_untrusted recoverConst sampleBody envGoodSigWrongSigner
      sampleProv).2.2 wellFormedSig "0xAAAA" "0xBBBB" rfl (by decide) (by decide) rfl
      (by decide) (by decide)

/-- C2: a verify report's `ok` is true exactly when its issues list is empty,
and two runs with equal issues lists have equal `ok` regardless of their
warnings. -/
theorem ok_iff_issues_empty (o : VOracles) (body : VerifyReq) (env : Envelope) (prov : Prov) :
    ((verifyCore o body env prov).ok = true ↔ (verifyCore o body env prov).issues = []) ∧
    (∀ (o' : VOracles) (body' : VerifyReq) (env' : Envelope) (prov' : Prov),
      (verifyCore o body env prov).issues = (verifyCore o' body' env' prov').issues →
      (verifyCore o body env prov).ok = (verifyCore o' body' env' prov').ok) := by
  constructor
  · rw [verifyCore_ok]
    exact List.isEmpty_iff
  · intro o' body' env' prov' h
    rw [verifyCore_ok, verifyCore_ok, h]

def overrideBody : VerifyReq :=
  { signedProvenanceCid := "QmEnvelope"
    prompt := none
    journalCid := some "QmOtherJournal"
    proofCid := none
    expectKeywords := false
    includeContent := false }

theorem ok_iff_issues_empty_witness :
    (verifyCore sampleOr sampleBody envNoSig sampleProv).warnings ≠
      (verifyCore sampleOr overrideBody envNoSig sampleProv).warnings ∧
    (verifyCore sampleOr sampleBody envNoSig sampleProv).ok =
      (verifyCore sampleOr overrideBody envNoSig sampleProv).ok := by
  refine ⟨by decide, ?_⟩
  exact (ok_iff_issues_empty sampleOr sampleBody envNoSig sampleProv).2
    sampleOr overrideBody envNoSig sampleProv (by decide)

/-! ## The journal override changes nothing that is hashed (claim C10) -/

theorem promptCheck_w_shape (body : VerifyReq) (prov : Prov) :
    (promptCheck body prov).2 = [] ∨ (promptCheck body prov).2 = ["no_prompt_supplied"] := by
  cases hb : body.prompt with
  | none => simp [promptCheck, hb]
  | some p =>
    by_cases hp : (p == "") = true
    · simp [promptCheck, hb, hp]
    · simp only [promptCheck, hb, Bool.not_eq_true] at *
      simp [hp]

theorem programHashWarnings_shape (prov : Prov) :
    programHashWarnings prov = [] ∨ programHashWarnings prov = ["program_hash_not_bound"] := by
  unfold programHashWarnings
  split
  · exact Or.inr rfl
  · exact Or.inl rfl

theorem journalChecks_w_shape (o : VOracles) (prov : Prov) :
    (journalChecks o prov).2 = [] ∨ (journalChecks o prov).2 = ["zk_keywords_not_bound"] := by
  unfold journalChecks
  split
  · cases hg : o.getJson prov.journalCid with
    | none => simp [hg]
    | some j =>
      cases hk : j.keywords with
      | none => simp [hg, hk]
      | some kws => simp [hg, hk]
  · split
    · exact Or.inr rfl
    · exact Or.inl rfl

theorem contentChecks_w_mem (o : VOracles) (body : VerifyReq) (env : Envelope) (prov : Prov) :
    ∀ w ∈ (contentChecks o body env prov).2,
      w = "content_fetch_failed" ∨ w = "zk_keywords_not_bound" ∨ w = "proof_unverified" := by
  intro w hw
  unfold contentChecks at hw
  by_cases hinc : body.includeContent = true
  · rw [if_pos hinc] at hw
    cases h1 : contentStep1 o prov with
    | none => rw [h1] at hw; simp at hw; exact Or.inl hw
    | some i1 =>
      rw [h1] at hw
      cases h2 : contentStep2 o env prov with
      | none => rw [h2] at hw; simp at hw; exact Or.inl hw
      | some i2 =>
        rw [h2] at hw
        simp only [List.mem_append] at hw
        rcases hw with hj | hp
        · rcases journalChecks_w_shape o prov with hs | hs <;> rw [hs] at hj
          · cases hj
          · simp at hj; exact Or.inr (Or.inl hj)
        · by_cases hpc : (prov.proofCid != "") = true
          · rw [if_pos hpc] at hp; simp at hp; exact Or.inr (Or.inr hp)
          · rw [if_neg hpc] at hp; cases hp
  · rw [if_neg hinc] at hw
    cases hw

theorem filter_ov_eq_self {l : List String}
    (h : ∀ w ∈ l, w ≠ "journalCid_override_used") :
    l.filter (fun w => !(w == "journalCid_override_used")) = l := by
  rw [List.filter_eq_self]
  intro a ha
  simp only [Bool.not_eq_true', beq_eq_false_iff_ne]
  exact h a ha

/-- C10: in the verify route the `journalCid` override in the request never
changes which journal is hashed: the issues list is identical for any two
overrides (the keywords recomputation always uses the envelope's own
`journalCid`); the override only contributes the warning
`journalCid_override_used`, and changes the journal identifier echoed in the
response. -/
theorem journalCid_override_isolated (o : VOracles) (body : VerifyReq) (env : Envelope)
    (prov : Prov) :
    (∀ j₁ j₂ : Option String,
      (verifyCore o { body with journalCid := j₁ } env prov).issues =
      (verifyCore o { body with journalCid := j₂ } env prov).issues) ∧
    (∀ j : Option String,
      (verifyCore o { body with journalCid := j } env prov).warnings.filter
          (fun w => !(w == "journalCid_override_used")) =
      (verifyCore o { body with journalCid := none } env prov).warnings) ∧
    (∀ j : String, j ≠ "" →
      (verifyCore o { body with journalCid := some j } env prov).respJournalCid = some j) := by
  refine ⟨fun j₁ j₂ => rfl, fun j => ?_, fun j hj => ?_⟩
  · rw [verifyCore_warnings, verifyCore_warnings]
    rw [List.filter_append, List.filter_append, List.filter_append]
    have hpc : ∀ b' : VerifyReq, (promptCheck b' prov).2.filter
        (fun w => !(w == "journalCid_override_used")) = (promptCheck b' prov).2 := by
      intro b'
      apply filter_ov_eq_self
      intro w hw
      rcases promptCheck_w_shape b' prov with hs | hs <;> rw [hs] at hw
      · cases hw
      · simp at hw; rw [hw]; decide
    have hph : (programHashWarnings prov).filter
        (fun w => !(w == "journalCid_override_used")) = programHashWarnings prov := by
      apply filter_ov_eq_self
      intro w hw
      rcases programHashWarnings_shape prov with hs | hs <;> rw [hs] at hw
      · cases hw
      · simp at hw; rw [hw]; decide
    have hcc : ∀ b' : VerifyReq, (contentChecks o b' env prov).2.filter
        (fun w => !(w == "journalCid_override_used")) = (contentChecks o b' env prov).2 := by
      intro b'
      apply filter_ov_eq_self
      intro w hw
      rcases contentChecks_w_mem o b' env prov w hw with h | h | h <;> rw [h] <;> decide
    have hov : (overrideWarnings { body with journalCid := j } prov).filter
        (fun w => !(w == "journalCid_override_used")) =
        overrideWarnings { body with journalCid := none } prov := by
      unfold overrideWarnings
      rw [List.filter_append]
      have hjpart : (match j with
          | some j' => if j' ≠ "" ∧ j' ≠ prov.journalCid then ["journalCid_override_used"] else []
          | none => ([] : List String)).filter (fun w => !(w == "journalCid_override_used")) = [] := by
        cases j with
        | none => rfl
        | some j' =>
          show (if j' ≠ "" ∧ j' ≠ prov.journalCid then ["journalCid_override_used"]
                else ([] : List String)).filter (fun w => !(w == "journalCid_override_used")) = []
          by_cases hc : j' ≠ "" ∧ j' ≠ prov.journalCid
          · rw [if_pos hc]; rfl
          · rw [if_neg hc]; rfl
      have hppart : (match body.proofCid with
          | some pc => if pc ≠ "" ∧ pc ≠ prov.proofCid then ["proofCid_override_used"] else []
          | none => ([] : List String)).filter (fun w => !(w == "journalCid_override_used")) =
          (match body.proofCid with
          | some pc => if pc ≠ "" ∧ pc ≠ prov.proofCid then ["proofCid_override_used"] else []
          | none => ([] : List String)) := by
        apply filter_ov_eq_self
        intro w hw
        cases hb : body.proofCid with
        | none => rw [hb] at hw; cases hw
        | some pc =>
          rw [hb] at hw
          have hw' : w ∈ (if pc ≠ "" ∧ pc ≠ prov.proofCid then ["proofCid_override_used"]
              else ([] : List String)) := hw
          by_cases hc : pc ≠ "" ∧ pc ≠ prov.proofCid
          · rw [if_pos hc] at hw'; simp at hw'; rw [hw']; decide
          · rw [if_neg hc] at hw'; cases hw'
      exact by rw [hjpart, hppart]
    rw [hpc, hph, hcc, hov]
    rfl
  · have hb : (j == "") = false := by simpa using hj
    show (if jsOr2 (some j) prov.journalCid == "" then none
          else some (jsOr2 (some j) prov.journalCid)) = some j
    simp [jsOr2, hb]

theorem journalCid_override_isolated_witness :
    ((verifyCore sampleOr { sampleBody with journalCid := some "QmJ1" } envNoSig sampleProv).issues =
     (verifyCore sampleOr { sampleBody with journalCid := some "QmJ2" } envNoSig sampleProv).issues) ∧
    (verifyCore sampleOr { sampleBody with journalCid := some "QmJ1" } envNoSig
        sampleProv).respJournalCid = some "QmJ1" := by
  refine ⟨?_, ?_⟩
  · exact (journalCid_override_isolated sampleOr sampleBody envNoSig sampleProv).1
      (some "QmJ1") (some "QmJ2")
  · exact (journalCid_override_isolated sampleOr sampleBody envNoSig sampleProv).2.2
      "QmJ1" (by decide)

/-! ## The proof_unverified warning (claim C6) -/

theorem mem_warnings_of_mem_cc {o : VOracles} {body : VerifyReq} {env : Envelope} {prov : Prov}
    {x : String} (hx : x ∈ (contentChecks o body env prov).2) :
    x ∈ (verifyCore o body env prov).warnings := by
  rw [verifyCore_warnings]
  simp only [List.mem_append]
  exact Or.inr hx

/-- C6 (amended): when the request opts into the deep-content check, an
envelope whose provenance carries a non-empty proofCid gets warning
`proof_unverified` — unless a content/prompt fetch threw, in which case the
warning `content_fetch_failed` is reported instead.  Without
`includeContent` no proof warning is emitted at all. -/
theorem proof_unverified_when_content_checked (o : VOracles) (body : VerifyReq) (env : Envelope)
    (prov : Prov) (hinc : body.includeContent = true) (hp : prov.proofCid ≠ "") :
    "proof_unverified" ∈ (verifyCore o body env prov).warnings ∨
    "content_fetch_failed" ∈ (verifyCore o body env prov).warnings := by
  have hpc : (prov.proofCid != "") = true := by simpa using hp
  cases h1 : contentStep1 o prov with
  | none =>
    refine Or.inr (mem_warnings_of_mem_cc ?_)
    unfold contentChecks
    rw [if_pos hinc, h1]
    exact List.mem_singleton.mpr rfl
  | some i1 =>
    cases h2 : contentStep2 o env prov with
    | none =>
      refine Or.inr (mem_warnings_of_mem_cc ?_)
      unfold contentChecks
      rw [if_pos hinc, h1, h2]
      exact List.mem_singleton.mpr rfl
    | some i2 =>
      refine Or.inl (mem_warnings_of_mem_cc ?_)
      unfold contentChecks
      rw [if_pos hinc, h1, h2]
      simp only [List.mem_append]
      rw [if_pos hpc]
      exact Or.inr (List.mem_singleton.mpr rfl)

def provWithProof : Prov :=
  { sampleProv with proofCid := "QmProof" }

def envWithProof : Envelope :=
  { provenance := some provWithProof
    signature := none
    signer := some "0xSigner"
    domain := none
    types := none
    promptCid := none }

theorem proof_unverified_counterexample :
    provWithProof.proofCid ≠ "" ∧
    "proof_unverified" ∉ (verifyCore sampleOr sampleBody envWithProof provWithProof).warnings := by
  exact ⟨by decide, by decide⟩

def includeBody : VerifyReq :=
  { sampleBody with includeContent := true }

theorem proof_unverified_when_content_checked_witness :
    "proof_unverified" ∈ (verifyCore sampleOr includeBody envWithProof provWithProof).warnings ∨
    "content_fetch_failed" ∈ (verifyCore sampleOr includeBody envWithProof provWithProof).warnings := by
  exact proof_unverified_when_content_checked sampleOr includeBody envWithProof provWithProof
    (by decide) (by decide)

/-! ## Publish validation (claim C7) -/

/-- The exact structural acceptance condition of the publish route. -/
def publishAccepts (body : PublishBody) : Prop :=
  ∃ p, body.provenance = some p ∧ optTruthy body.signature = true ∧
    optTruthy body.signer = true ∧ p.version = 1 ∧ p.modelId ≠ "" ∧ p.promptHash ≠ "" ∧
    p.outputHash ≠ "" ∧ p.paramsHash ≠ "" ∧ p.contentCid ≠ ""

/-- Boolean form of the publish route's structural acceptance condition. -/
def publishAcceptsB (body : PublishBody) : Bool :=
  match body.provenance with
  | none => false
  | some p =>
    optTruthy body.signature && optTruthy body.signer && (p.version == 1) &&
    !(p.modelId == "") && !(p.promptHash == "") && !(p.outputHash == "") &&
    !(p.paramsHash == "") && !(p.contentCid == "")

theorem publishAccepts_iff_b (body : PublishBody) :
    publishAccepts body ↔ publishAcceptsB body = true := by
  cases hp : body.provenance with
  | none =>
    simp only [publishAcceptsB, hp]
    constructor
    · rintro ⟨p, hsome, -⟩
      rw [hp] at hsome
      cases hsome
    · intro h
      cases h
  | some p =>
    simp only [publishAcceptsB, hp, Bool.and_eq_true, beq_iff_eq,
      Bool.not_eq_true', beq_eq_false_iff_ne]
    constructor
    · rintro ⟨q, hsome, h⟩
      rw [hp] at hsome
      cases hsome
      tauto
    · intro h
      exact ⟨p, hp, by tauto⟩

theorem publish_invalid_iff (addJson : PubEnvelope → Option String) (now : Nat)
    (body : PublishBody) :
    (∃ e, publishPOST addJson now body = .error (.invalid e)) ↔
    publishAcceptsB body = false := by
  cases hp : body.provenance with
  | none =>
    simp only [publishAcceptsB, hp]
    constructor
    · intro _
      trivial
    · intro _
      exact ⟨"Missing provenance, signature or signer", by simp [publishPOST, hp]⟩
  | some p =>
    simp only [publishPOST, publishAcceptsB, hp]
    by_cases hA : (!(optTruthy body.signature) || !(optTruthy body.signer)) = true
    · rw [if_pos hA]
      have hcase : optTruthy body.signature = false ∨ optTruthy body.signer = false := by
        cases h : optTruthy body.signature
        · exact Or.inl rfl
        · cases h2 : optTruthy body.signer
          · exact Or.inr rfl
          · rw [h, h2] at hA
            simp at hA
      rcases hcase with h | h
      · simp [h]
      · simp [h]
    · rw [if_neg hA]
      have hsig : optTruthy body.signature = true := by
        cases h : optTruthy body.signature
        · exact absurd (by simp [h]) hA
        · rfl
      have hsgn : optTruthy body.signer = true := by
        cases h : optTruthy body.signer
        · exact absurd (by simp [h]) hA
        · rfl
      ·
        by_cases hV : p.version ≠ 1
        · rw [if_pos hV]
          simp [hsig, hsgn, hV]
        · rw [if_neg hV]
          have hv1 : p.version = 1 := by omega
          by_cases hM : (p.modelId == "") = true
          · rw [if_pos hM]
            simp only [beq_iff_eq] at hM
            simp [hsig, hsgn, hv1, hM]
          · rw [if_neg hM]
            by_cases hPr : (p.promptHash == "") = true
            · rw [if_pos hPr]
              simp only [beq_iff_eq] at hPr
              simp [hsig, hsgn, hv1, hPr]
            · rw [if_neg hPr]
              by_cases hO : (p.outputHash == "") = true
              · rw [if_pos hO]
                simp only [beq_iff_eq] at hO
                simp [hsig, hsgn, hv1, hO]
              · rw [if_neg hO]
                by_cases hPa : (p.paramsHash == "") = true
                · rw [if_pos hPa]
                  simp only [beq_iff_eq] at hPa
                  simp [hsig, hsgn, hv1, hPa]
                · rw [if_neg hPa]
                  by_cases hC : (p.contentCid == "") = true
                  · rw [if_pos hC]
                    simp only [beq_iff_eq] at hC
                    simp [hsig, hsgn, hv1, hC]
                  · rw [if_neg hC]
                    have hB : (optTruthy body.signature && optTruthy body.signer &&
                        (p.version == 1) && !(p.modelId == "") && !(p.promptHash == "") &&
                        !(p.outputHash == "") && !(p.paramsHash == "") &&
                        !(p.contentCid == "")) = true := by
                      rw [Bool.not_eq_true] at hM hPr hO hPa hC
                      simp [hsig, hsgn, hv1, hM, hPr, hO, hPa, hC]
                    rw [hB]
                    constructor
                    · rintro ⟨e, he⟩
                      cases haj : addJson _ <;> rw [haj] at he <;> cases he
                    · intro h
                      cases h
  
/-- C7: the publish route rejects with a validation error exactly when the
request is structurally incomplete (missing provenance/signature/signer,
unsupported version, or an empty required record field), and the decision is
unchanged by swapping one non-empty signature for another — no signature
verification happens at publish time (the route never consults a recovery
function). -/
theorem publish_validation_characterization :
    (∀ (addJson : PubEnvelope → Option String) (now : Nat) (body : PublishBody),
      (∃ e, publishPOST addJson now body = .error (.invalid e)) ↔ ¬ publishAccepts body) ∧
    (∀ (addJson : PubEnvelope → Option String) (now : Nat) (body : PublishBody) (s₁ s₂ : String),
      s₁ ≠ "" → s₂ ≠ "" →
      ((∃ e, publishPOST addJson now { body with signature := some s₁ } = .error (.invalid e)) ↔
       (∃ e, publishPOST addJson now { body with signature := some s₂ } = .error (.invalid e)))) := by
  have main : ∀ (addJson : PubEnvelope → Option String) (now : Nat) (body : PublishBody),
      (∃ e, publishPOST addJson now body = .error (.invalid e)) ↔ ¬ publishAccepts body := by
    intro addJson now body
    rw [publish_invalid_iff, publishAccepts_iff_b]
    constructor
    · intro h hc
      rw [hc] at h
      cases h
    · intro h
      cases hb : publishAcceptsB body
      · rfl
      · exact absurd hb h
  refine ⟨main, ?_⟩
  intro addJson now body s₁ s₂ hs₁ hs₂
  rw [publish_invalid_iff, publish_invalid_iff]
  have hacc : ∀ s : String, s ≠ "" →
      publishAcceptsB { body with signature := some s } =
      (match body.provenance with
       | none => false
       | some p =>
         optTruthy body.signer && (p.version == 1) &&
         !(p.modelId == "") && !(p.promptHash == "") && !(p.outputHash == "") &&
         !(p.paramsHash == "") && !(p.contentCid == "")) := by
    intro s hs
    have hb : (s == "") = false := by simpa using hs
    cases hp : body.provenance with
    | none => simp [publishAcceptsB, hp]
    | some p =>
      simp only [publishAcceptsB, hp, optTruthy, hb, Bool.not_false, Bool.true_and]
  rw [hacc s₁ hs₁, hacc s₂ hs₂]

def goodPubBody : PublishBody :=
  { provenance := some sampleProv
    signature := some "unsigned"
    signer := some "0xSigner"
    promptCid := none }

def badPubBody : PublishBody :=
  { provenance := some sampleProv
    signature := some "0xdeadbeef"
    signer := none
    promptCid := none }

theorem publish_validation_characterization_witness :
    (∃ e, publishPOST (fun _ => some "QmEnvelope") 0 badPubBody = .error (.invalid e)) ∧
    ((∃ e, publishPOST (fun _ => some "QmEnvelope") 0
        { goodPubBody with signature := some "0xsig1" } = .error (.invalid e)) ↔
     (∃ e, publishPOST (fun _ => some "QmEnvelope") 0
        { goodPubBody with signature := some "0xsig2" } = .error (.invalid e))) := by
  constructor
  · refine (publish_validation_characterization.1 (fun _ => some "QmEnvelope") 0 badPubBody).mpr ?_
    rintro ⟨p, -, -, hsgn, -⟩
    simp [badPubBody, optTruthy] at hsgn
  · exact publish_validation_characterization.2 (fun _ => some "QmEnvelope") 0 goodPubBody
      "0xsig1" "0xsig2" (by decide) (by decide)

/-! ## The "unsigned" marker (claim C4) -/

theorem verifyTypedDataE_unsigned (rec : String → String → Prov → String → Option String)
    (dom tps : String) (prov : Prov) :
    verifyTypedDataE rec dom tps prov "unsigned" = none := by
  have h : isHexSigStr "unsigned" = false := by decide
  simp [verifyTypedDataE, h]

theorem publishPOST_store_failed {addJson : PubEnvelope → Option String} {now : Nat}
    {body : PublishBody} (h : publishPOST addJson now body = .error .storeFailed) :
    ∃ e, addJson e = none := by
  unfold publishPOST at h
  cases hp : body.provenance with
  | none => rw [hp] at h; cases h
  | some p =>
    rw [hp] at h
    split at h
    · simp at h
    · split at h
      · simp at h
      · split at h
        · simp at h
        · split at h
          · simp at h
          · split at h
            · simp at h
            · split at h
              · simp at h
              · split at h
                · simp at h
                · split at h
                  · simp at h
                  · split at h
                    · exact ⟨_, by assumption⟩
                    · simp at h

theorem publishPOST_isOk_of_accepts (addJson : PubEnvelope → Option String) (now : Nat)
    (body : PublishBody) (hacc : publishAcceptsB body = true)
    (hadd : ∀ e, addJson e ≠ none) : (publishPOST addJson now body).isOk = true := by
  cases hres : publishPOST addJson now body with
  | ok v => rfl
  | error e =>
    cases e with
    | invalid m =>
      have hfalse : publishAcceptsB body = false :=
        (publish_invalid_iff addJson now body).mp ⟨m, hres⟩
      rw [hacc] at hfalse
      cases hfalse
    | storeFailed =>
      obtain ⟨env0, henv⟩ := publishPOST_store_failed hres
      exact absurd henv (hadd env0)

/-- C4 (amended): publishing with the literal signature "unsigned" succeeds
(publish never checks more than non-emptiness), and verification of such an
envelope reports issue `signature_invalid` — the marker enters the recovery
branch, whose signature parse rejects it — with `ok = false`.  The code does
not treat "unsigned" as a missing signature. -/
theorem unsigned_publishes_but_recovery_fails :
    (∀ (addJson : PubEnvelope → Option String) (now : Nat) (body : PublishBody) (p : Prov),
      body.provenance = some p → body.signature = some "unsigned" →
      optTruthy body.signer = true → p.version = 1 → p.modelId ≠ "" → p.promptHash ≠ "" →
      p.outputHash ≠ "" → p.paramsHash ≠ "" → p.contentCid ≠ "" →
      (∀ e, addJson e ≠ none) →
      (publishPOST addJson now body).isOk = true) ∧
    (∀ (o : VOracles) (body : VerifyReq) (env : Envelope) (prov : Prov),
      env.signature = some "unsigned" →
      "signature_invalid" ∈ (verifyCore o body env prov).issues ∧
      (verifyCore o body env prov).ok = false) := by
  constructor
  · intro addJson now body p hp hsig hsgn hv hm hpr hout hpa hc hadd
    have hsigT : optTruthy body.signature = true := by rw [hsig]; decide
    have hA : ¬((!(optTruthy body.signature) || !(optTruthy body.signer)) = true) := by
      rw [hsigT, hsgn]
      simp
    have hmB : (p.modelId == "") = false := by simpa using hm
    have hprB : (p.promptHash == "") = false := by simpa using hpr
    have houtB : (p.outputHash == "") = false := by simpa using hout
    have hpaB : (p.paramsHash == "") = false := by simpa using hpa
    have hcB : (p.contentCid == "") = false := by simpa using hc
    have haccB : publishAcceptsB body = true := by
      simp only [publishAcceptsB, hp]
      simp [hsigT, hsgn, hv, hmB, hprB, houtB, hpaB, hcB]
    exact publishPOST_isOk_of_accepts addJson now body haccB hadd
  · intro o body env prov hs
    have hrec : verifyTypedDataE o.recover (jsOr env.domain defaultDomainTag)
        (jsOr env.types defaultTypesTag) prov "unsigned" = none :=
      verifyTypedDataE_unsigned _ _ _ _
    have hmem : "signature_invalid" ∈ (verifyCore o body env prov).issues :=
      mem_issues_of_mem_sig
        (by rw [sigCheck_invalid hs (by decide) hrec]; exact List.mem_singleton.mpr rfl)
    exact ⟨hmem, ok_false_of_mem_issues hmem⟩

def envUnsigned : Envelope :=
  { provenance := some sampleProv
    signature := some "unsigned"
    signer := some "0xSigner"
    domain := none
    types := none
    promptCid := none }

theorem unsigned_treated_as_missing_counterexample :
    envUnsigned.signature = some "unsigned" ∧
    "missing_signature" ∉ (verifyCore sampleOr sampleBody envUnsigned sampleProv).issues := by
  exact ⟨rfl, by decide⟩

theorem unsigned_publishes_but_recovery_fails_witness :
    (publishPOST (fun _ => some "QmEnvelope") 0 goodPubBody).isOk = true ∧
    ("signature_invalid" ∈ (verifyCore sampleOr sampleBody envUnsigned sampleProv).issues ∧
      (verifyCore sampleOr sampleBody envUnsigned sampleProv).ok = false) := by
  constructor
  · exact unsigned_publishes_but_recovery_fails.1 (fun _ => some "QmEnvelope") 0 goodPubBody
      sampleProv rfl rfl (by decide) rfl (by decide) (by decide) (by decide) (by decide)
      (by decide) (fun e => by simp)
  · exact unsigned_publishes_but_recovery_fails.2 sampleOr sampleBody envUnsigned sampleProv rfl

/-! ## Order-independence of the params digest (claim C3) -/

/-- Last-assignment-wins lookup, the value a key ends up with after a JS
object literal assigns the pairs of `l` in order. -/
def jsGetLast (l : List (String × JVal)) (k : String) : Option JVal :=
  jsGet l.reverse k

def optOr (a b : Option JVal) : Option JVal :=
  match a with
  | some v => some v
  | none => b

theorem optOr_none_right (a : Option JVal) : optOr a none = a := by
  cases a <;> rfl

theorem optOr_assoc (a b c : Option JVal) : optOr (optOr a b) c = optOr a (optOr b c) := by
  cases a <;> rfl

theorem if_false_bool {α : Type} (a b : α) : (if false = true then a else b) = b := rfl

theorem jsGet_cons (kv : String × JVal) (l : List (String × JVal)) (k : String) :
    jsGet (kv :: l) k = if kv.1 == k then some kv.2 else jsGet l k := by
  unfold jsGet
  cases h : kv.1 == k <;> simp [List.find?_cons, h]

theorem jsGet_append (l₁ l₂ : List (String × JVal)) (k : String) :
    jsGet (l₁ ++ l₂) k = optOr (jsGet l₁ k) (jsGet l₂ k) := by
  induction l₁ with
  | nil => simp [jsGet, optOr]
  | cons kv t ih =>
    rw [List.cons_append, jsGet_cons, jsGet_cons]
    cases h : kv.1 == k <;> simp [h, ih, optOr]

theorem jsGet_singleton (kv : String × JVal) (k : String) :
    jsGet [kv] k = if k = kv.1 then some kv.2 else none := by
  rw [jsGet_cons]
  by_cases h : k = kv.1
  · have hb : (kv.1 == k) = true := by rw [beq_iff_eq]; exact h.symm
    rw [hb, if_pos rfl, if_pos h]
  · have hb : (kv.1 == k) = false := by
      rw [beq_eq_false_iff_ne]
      exact fun he => h he.symm
    rw [hb, if_false_bool, if_neg h]
    rfl

theorem jsGet_eq_none_iff_not_any (l : List (String × JVal)) (k : String) :
    jsGet l k = none ↔ l.any (fun x => x.1 == k) = false := by
  induction l with
  | nil => simp [jsGet]
  | cons x t ih =>
    rw [jsGet_cons, List.any_cons]
    cases h : x.1 == k <;> simp [h, ih]

theorem jsGet_map_upd (o : List (String × JVal)) (kv : String × JVal) (k : String) :
    jsGet (o.map (fun x => if x.1 == kv.1 then kv else x)) k =
      if k = kv.1 then (if o.any (fun x => x.1 == kv.1) then some kv.2 else none)
      else jsGet o k := by
  induction o with
  | nil => by_cases h : k = kv.1 <;> simp [jsGet, h]
  | cons x t ih =>
    by_cases hx : (x.1 == kv.1) = true
    · rw [List.map_cons, if_pos hx, jsGet_cons, List.any_cons, hx, Bool.true_or]
      by_cases hk : k = kv.1
      · have hb : (kv.1 == k) = true := by rw [beq_iff_eq]; exact hk.symm
        rw [hb]
        simp [hk]
      · have hb : (kv.1 == k) = false := by
          rw [beq_eq_false_iff_ne]
          exact fun he => hk he.symm
        have hxb : (x.1 == k) = false := by
          rw [beq_iff_eq] at hx
          rw [beq_eq_false_iff_ne, hx]
          exact fun he => hk he.symm
        rw [hb, if_false_bool, ih, if_neg hk, if_neg hk, jsGet_cons, hxb, if_false_bool]
    · have hxF : (x.1 == kv.1) = false := by
        cases hxx : x.1 == kv.1
        · rfl
        · exact absurd hxx hx
      rw [List.map_cons, if_neg hx, jsGet_cons, List.any_cons, hxF, Bool.false_or]
      by_cases hxk : (x.1 == k) = true
      · have hk : ¬ k = kv.1 := by
          intro he
          rw [beq_iff_eq] at hxk
          exact hx (by rw [beq_iff_eq, hxk, he])
        rw [if_pos hxk, if_neg hk, jsGet_cons, if_pos hxk]
      · have hxkF : (x.1 == k) = false := by
          cases hxx : x.1 == k
          · rfl
          · exact absurd hxx hxk
        rw [if_neg hxk, ih, jsGet_cons, hxkF, if_false_bool]

theorem jsGet_objUpsert (o : List (String × JVal)) (kv : String × JVal) (k : String) :
    jsGet (objUpsert o kv) k = if k = kv.1 then some kv.2 else jsGet o k := by
  unfold objUpsert
  by_cases hmem : o.any (fun x => x.1 == kv.1) = true
  · rw [if_pos hmem, jsGet_map_upd, hmem]
    by_cases hk : k = kv.1 <;> simp [hk]
  · have hmemF : o.any (fun x => x.1 == kv.1) = false := by
      cases hx : o.any (fun x => x.1 == kv.1)
      · rfl
      · exact absurd hx hmem
    rw [if_neg hmem, jsGet_append, jsGet_singleton]
    by_cases hk : k = kv.1
    · have : jsGet o k = none := by
        rw [jsGet_eq_none_iff_not_any, hk]
        exact hmemF
      rw [this, if_pos hk]
      rfl
    · rw [if_neg hk, optOr_none_right, if_neg hk]

theorem jsGet_foldl_objUpsert (l : List (String × JVal)) (acc : List (String × JVal))
    (k : String) :
    jsGet (l.foldl objUpsert acc) k = optOr (jsGetLast l k) (jsGet acc k) := by
  induction l generalizing acc with
  | nil => simp [jsGetLast, jsGet, optOr]
  | cons kv t ih =>
    rw [List.foldl_cons, ih]
    have hlast : jsGetLast (kv :: t) k = optOr (jsGetLast t k) (jsGet [kv] k) := by
      unfold jsGetLast
      rw [List.reverse_cons, jsGet_append]
    rw [hlast, optOr_assoc, jsGet_objUpsert, jsGet_singleton]
    by_cases hk : k = kv.1
    · rw [if_pos hk, if_pos hk]
      rfl
    · rw [if_neg hk, if_neg hk]
      rfl

theorem jsGet_objFromPairs (l : List (String × JVal)) (k : String) :
    jsGet (objFromPairs l) k = jsGetLast l k := by
  unfold objFromPairs
  rw [jsGet_foldl_objUpsert]
  cases jsGetLast l k <;> rfl

theorem keys_objUpsert (o : List (String × JVal)) (kv : String × JVal) :
    (objUpsert o kv).map Prod.fst =
      if o.any (fun x => x.1 == kv.1) then o.map Prod.fst else o.map Prod.fst ++ [kv.1] := by
  unfold objUpsert
  by_cases hmem : o.any (fun x => x.1 == kv.1) = true
  · rw [if_pos hmem, if_pos hmem, List.map_map]
    apply List.map_congr_left
    intro x _
    by_cases hx : (x.1 == kv.1) = true
    · simp only [Function.comp_apply, if_pos hx]
      rw [beq_iff_eq] at hx
      exact hx.symm
    · simp only [Function.comp_apply, if_neg hx]
  · rw [if_neg hmem, if_neg hmem, List.map_append]
    rfl

theorem mem_keys_objUpsert (o : List (String × JVal)) (kv : String × JVal) (k : String) :
    k ∈ (objUpsert o kv).map Prod.fst ↔ k ∈ o.map Prod.fst ∨ k = kv.1 := by
  rw [keys_objUpsert]
  by_cases hmem : o.any (fun x => x.1 == kv.1) = true
  · rw [if_pos hmem]
    have hin : kv.1 ∈ o.map Prod.fst := by
      rcases List.any_eq_true.mp hmem with ⟨x, hx, hbx⟩
      rw [beq_iff_eq] at hbx
      exact hbx ▸ List.mem_map_of_mem Prod.fst hx
    exact ⟨Or.inl, fun h => h.elim id (fun he => he ▸ hin)⟩
  · rw [if_neg hmem]
    simp [List.mem_append]

theorem nodup_keys_objUpsert (o : List (String × JVal)) (kv : String × JVal)
    (h : (o.map Prod.fst).Nodup) : ((objUpsert o kv).map Prod.fst).Nodup := by
  rw [keys_objUpsert]
  by_cases hmem : o.any (fun x => x.1 == kv.1) = true
  · rw [if_pos hmem]
    exact h
  · rw [if_neg hmem]
    have hnotin : kv.1 ∉ o.map Prod.fst := by
      intro hin
      rcases List.mem_map.mp hin with ⟨x, hx, hfst⟩
      exact hmem (List.any_eq_true.mpr ⟨x, hx, by rw [beq_iff_eq]; exact hfst⟩)
    simp [List.nodup_append, h, hnotin]

theorem nodup_keys_foldl (l acc : List (String × JVal))
    (h : (acc.map Prod.fst).Nodup) : ((l.foldl objUpsert acc).map Prod.fst).Nodup := by
  induction l generalizing acc with
  | nil => exact h
  | cons kv t ih => exact ih (objUpsert acc kv) (nodup_keys_objUpsert acc kv h)

theorem nodup_keys_objFromPairs (l : List (String × JVal)) :
    ((objFromPairs l).map Prod.fst).Nodup :=
  nodup_keys_foldl l [] List.nodup_nil

theorem mem_keys_foldl (l acc : List (String × JVal)) (k : String) :
    k ∈ (l.foldl objUpsert acc).map Prod.fst ↔
      k ∈ acc.map Prod.fst ∨ k ∈ l.map Prod.fst := by
  induction l generalizing acc with
  | nil => simp
  | cons kv t ih =>
    rw [List.foldl_cons, ih, mem_keys_objUpsert, List.map_cons, List.mem_cons]
    tauto

theorem mem_keys_objFromPairs (l : List (String × JVal)) (k : String) :
    k ∈ (objFromPairs l).map Prod.fst ↔ k ∈ l.map Prod.fst := by
  unfold objFromPairs
  rw [mem_keys_foldl]
  simp

theorem jsGet_eq_some_iff (l : List (String × JVal)) (k : String) (v : JVal)
    (h : (l.map Prod.fst).Nodup) : jsGet l k = some v ↔ (k, v) ∈ l := by
  induction l with
  | nil => simp [jsGet]
  | cons x t ih =>
    rw [List.map_cons, List.nodup_cons] at h
    rw [jsGet_cons]
    by_cases hx : (x.1 == k) = true
    · rw [if_pos hx, beq_iff_eq] at *
      constructor
      · intro he
        injection he with he
        refine List.mem_cons.mpr (Or.inl ?_)
        rw [Prod.ext_iff]
        exact ⟨hx.symm, he.symm⟩
      · intro hmem
        rcases List.mem_cons.mp hmem with he | hmemt
        · rw [Prod.ext_iff] at he
          have hv : v = x.2 := he.2
          rw [hv]
        · exfalso
          have hk : k ∈ t.map Prod.fst := by
            have := List.mem_map_of_mem Prod.fst hmemt
            simpa using this
          exact h.1 (hx ▸ hk)
    · rw [if_neg hx, ih h.2]
      constructor
      · exact fun hm => List.mem_cons.mpr (Or.inr hm)
      · intro hmem
        rcases List.mem_cons.mp hmem with he | hmemt
        · exfalso
          apply hx
          rw [beq_iff_eq]
          rw [Prod.ext_iff] at he
          exact he.1.symm
        · exact hmemt

theorem jsGet_eq_none_iff_not_mem (l : List (String × JVal)) (k : String) :
    jsGet l k = none ↔ k ∉ l.map Prod.fst := by
  rw [jsGet_eq_none_iff_not_any]
  constructor
  · intro hany hmem
    rcases List.mem_map.mp hmem with ⟨x, hx, hfst⟩
    have : l.any (fun x => x.1 == k) = true :=
      List.any_eq_true.mpr ⟨x, hx, by rw [beq_iff_eq]; exact hfst⟩
    rw [this] at hany
    cases hany
  · intro hmem
    cases hany : l.any (fun x => x.1 == k)
    · rfl
    · exfalso
      rcases List.any_eq_true.mp hany with ⟨x, hx, hbx⟩
      rw [beq_iff_eq] at hbx
      exact hmem (hbx ▸ List.mem_map_of_mem Prod.fst hx)

theorem jsGet_reverse (l : List (String × JVal)) (k : String)
    (h : (l.map Prod.fst).Nodup) : jsGet l.reverse k = jsGet l k := by
  have hrev : (l.reverse.map Prod.fst).Nodup := by
    rw [List.map_reverse]
    exact List.nodup_reverse.mpr h
  cases hg : jsGet l k with
  | some v =>
    rw [jsGet_eq_some_iff _ _ _ hrev]
    rw [jsGet_eq_some_iff _ _ _ h] at hg
    exact List.mem_reverse.mpr hg
  | none =>
    rw [jsGet_eq_none_iff_not_mem] at hg ⊢
    rw [List.map_reverse]
    intro hmem
    exact hg (List.mem_reverse.mp hmem)

theorem jsGet_perm (l₁ l₂ : List (String × JVal)) (k : String) (hp : l₁.Perm l₂)
    (h₁ : (l₁.map Prod.fst).Nodup) : jsGet l₁ k = jsGet l₂ k := by
  have h₂ : (l₂.map Prod.fst).Nodup := ((hp.map Prod.fst).nodup_iff).mp h₁
  cases hg : jsGet l₁ k with
  | some v =>
    rw [jsGet_eq_some_iff _ _ _ h₁] at hg
    symm
    rw [jsGet_eq_some_iff _ _ _ h₂]
    exact hp.mem_iff.mp hg
  | none =>
    rw [jsGet_eq_none_iff_not_mem] at hg
    symm
    rw [jsGet_eq_none_iff_not_mem]
    intro hmem
    exact hg (((hp.map Prod.fst).mem_iff).mpr hmem)

theorem insSorted_perm (k : String) (l : List String) : (insSorted k l).Perm (k :: l) := by
  induction l with
  | nil => exact List.Perm.refl _
  | cons x xs ih =>
    unfold insSorted
    by_cases h : k ≤ x
    · rw [if_pos h]
    · rw [if_neg h]
      exact (ih.cons x).trans (List.Perm.swap k x xs)

theorem insSorted_sorted (k : String) (l : List String) (h : l.Pairwise (· ≤ ·)) :
    (insSorted k l).Pairwise (· ≤ ·) := by
  induction l with
  | nil => simp [insSorted]
  | cons x xs ih =>
    rw [List.pairwise_cons] at h
    unfold insSorted
    by_cases hk : k ≤ x
    · rw [if_pos hk]
      rw [List.pairwise_cons]
      refine ⟨?_, List.pairwise_cons.mpr h⟩
      intro y hy
      rcases List.mem_cons.mp hy with he | hmem
      · rw [he]
        exact hk
      · exact le_trans hk (h.1 y hmem)
    · rw [if_neg hk]
      rw [List.pairwise_cons]
      refine ⟨?_, ih h.2⟩
      intro y hy
      have hy' : y ∈ k :: xs := (insSorted_perm k xs).mem_iff.mp hy
      rcases List.mem_cons.mp hy' with he | hmem
      · rw [he]
        exact le_of_not_le hk
      · exact h.1 y hmem

theorem sortKeys_perm (l : List String) : (sortKeys l).Perm l := by
  induction l with
  | nil => exact List.Perm.refl _
  | cons x xs ih =>
    unfold sortKeys
    rw [List.foldr_cons]
    exact (insSorted_perm x _).trans (ih.cons x)

theorem sortKeys_sorted (l : List String) : (sortKeys l).Pairwise (· ≤ ·) := by
  induction l with
  | nil => simp [sortKeys]
  | cons x xs ih =>
    unfold sortKeys
    rw [List.foldr_cons]
    exact insSorted_sorted x _ ih

theorem sortKeys_eq_of_perm {l₁ l₂ : List String} (hp : l₁.Perm l₂) :
    sortKeys l₁ = sortKeys l₂ := by
  have hperm : (sortKeys l₁).Perm (sortKeys l₂) :=
    (sortKeys_perm l₁).trans (hp.trans (sortKeys_perm l₂).symm)
  exact List.eq_of_perm_of_sorted hperm (sortKeys_sorted l₁) (sortKeys_sorted l₂)

theorem filterMap_eq_of_eq_on {α β : Type} {f g : α → Option β} (l : List α)
    (h : ∀ a ∈ l, f a = g a) : l.filterMap f = l.filterMap g := by
  induction l with
  | nil => rfl
  | cons x t ih =>
    rw [List.filterMap_cons, List.filterMap_cons, h x (List.mem_cons_self x t),
      ih (fun a ha => h a (List.mem_cons.mpr (Or.inr ha)))]

theorem canonicalizeParams_perm (p₁ p₂ : List (String × JVal))
    (h₁ : (p₁.map Prod.fst).Nodup) (h₂ : (p₂.map Prod.fst).Nodup) (hp : p₁.Perm p₂) :
    canonicalizeParams (some p₁) = canonicalizeParams (some p₂) := by
  unfold canonicalizeParams sortedObjOf
  simp only [Option.getD_some]
  have hget : ∀ k, jsGet (objFromPairs (paramDefaults ++ p₁)) k =
      jsGet (objFromPairs (paramDefaults ++ p₂)) k := by
    intro k
    rw [jsGet_objFromPairs, jsGet_objFromPairs]
    unfold jsGetLast
    rw [List.reverse_append, List.reverse_append, jsGet_append, jsGet_append]
    have hrev : jsGet p₁.reverse k = jsGet p₂.reverse k := by
      rw [jsGet_reverse _ _ h₁, jsGet_reverse _ _ h₂]
      exact jsGet_perm p₁ p₂ k hp h₁
    rw [hrev]
  have hkeys : (((objFromPairs (paramDefaults ++ p₁)).map Prod.fst)).Perm
      ((objFromPairs (paramDefaults ++ p₂)).map Prod.fst) := by
    have hn₁ := nodup_keys_objFromPairs (paramDefaults ++ p₁)
    have hn₂ := nodup_keys_objFromPairs (paramDefaults ++ p₂)
    have hmem : ∀ k, k ∈ (objFromPairs (paramDefaults ++ p₁)).map Prod.fst ↔
        k ∈ (objFromPairs (paramDefaults ++ p₂)).map Prod.fst := by
      intro k
      rw [mem_keys_objFromPairs, mem_keys_objFromPairs, List.map_append, List.map_append,
        List.mem_append, List.mem_append]
      have : k ∈ p₁.map Prod.fst ↔ k ∈ p₂.map Prod.fst := (hp.map Prod.fst).mem_iff
      tauto
    exact (List.subperm_of_subset hn₁ (fun k hk => (hmem k).mp hk)).antisymm
      (List.subperm_of_subset hn₂ (fun k hk => (hmem k).mpr hk))
  rw [sortKeys_eq_of_perm hkeys]
  apply filterMap_eq_of_eq_on
  intro k _
  rw [hget k]

/-- C3: the params digest is insertion-order independent — for two parameter
objects equal as sets of key-value pairs, merging with the defaults
`temperature: 0, top_p: 1`, re-serializing with keys sorted, and hashing
yields the same `paramsHash`. -/
theorem digestParams_order_independent (H : String → String) (p₁ p₂ : List (String × JVal))
    (h₁ : (p₁.map Prod.fst).Nodup) (h₂ : (p₂.map Prod.fst).Nodup) (hp : p₁.Perm p₂) :
    digestParams H (some p₁) = digestParams H (some p₂) := by
  unfold digestParams
  rw [canonicalizeParams_perm p₁ p₂ h₁ h₂ hp]

theorem digestParams_order_independent_witness :
    ([(("top_p" : String), JVal.num 2), ("alpha", JVal.str "x")].Perm
      [(("alpha" : String), JVal.str "x"), ("top_p", JVal.num 2)]) ∧
    digestParams sha256Hex (some [(("top_p" : String), JVal.num 2), ("alpha", JVal.str "x")]) =
      digestParams sha256Hex (some [(("alpha" : String), JVal.str "x"), ("top_p", JVal.num 2)]) := by
  constructor
  · decide
  · exact digestParams_order_independent sha256Hex _ _ (by decide) (by decide) (by decide)

/-! ## The zero-sentinel invariant of built records (claim C5) -/

/-- Provenance of a successful summarize run. -/
def provRes (r : Except SErr SummarizeOut) : Option Prov :=
  match r with
  | .ok o => some o.provenance
  | .error _ => none

/-- Whether a successful summarize run's warnings list holds `w`. -/
def warnContains (r : Except SErr SummarizeOut) (w : String) : Bool :=
  match r with
  | .ok o => o.warnings.contains w
  | .error _ => false

/-- The claimed invariant: keywordsHash and programHash both the zero
sentinel, or both non-zero with a non-'none' attestation strategy. -/
def bothZeroOrBothBound (p : Prov) : Bool :=
  (p.keywordsHash == ZERO_HASH && p.programHash == ZERO_HASH) ||
  (p.keywordsHash != ZERO_HASH && p.programHash != ZERO_HASH &&
    p.attestationStrategy != "none")

/-- The invariant the builder actually maintains: both hashes the zero
sentinel, or keywordsHash non-zero with a non-'none' strategy (programHash
may stay zero when the journal's program hash is missing or a placeholder). -/
def amendedZeroInv (p : Prov) : Bool :=
  (p.keywordsHash == ZERO_HASH && p.programHash == ZERO_HASH) ||
  (p.keywordsHash != ZERO_HASH && p.attestationStrategy != "none")

theorem zkSection_cases (H : String → String) (o : BOracles) (env : BEnv) (useZk : Bool)
    (s : String) (hz : ∀ x, H x ≠ ZERO_HASH) :
    ((zkSection H o env useZk s).keywordsHash = ZERO_HASH ∧
     (zkSection H o env useZk s).programHash = ZERO_HASH ∧
     ((zkSection H o env useZk s).mode = ZkMode.disabled ∨
      (zkSection H o env useZk s).mode = ZkMode.failed)) ∨
    ((zkSection H o env useZk s).keywordsHash ≠ ZERO_HASH ∧ useZk = true ∧
     ((zkSection H o env useZk s).mode = ZkMode.mock ∨
      (zkSection H o env useZk s).mode = ZkMode.real)) := by
  unfold zkSection
  cases useZk with
  | false =>
    left
    simp
  | true =>
    simp only [Bool.not_true, if_false_bool]
    by_cases hf : (env.mockZk || !env.zkEnabled) = true
    · rw [if_pos hf]
      right
      refine ⟨?_, by trivial, Or.inl rfl⟩
      exact hz _
    · rw [if_neg hf]
      cases hr : o.realZk with
      | none =>
        left
        simp
      | some real =>
        by_cases hs : real.success = true
        · cases hj : real.journalData with
          | none =>
            left
            simp [hs, hj]
          | some journal =>
            right
            refine ⟨?_, by trivial, Or.inr ?_⟩
            · intro hcontra
              apply hz (stringifyKeywords (journal.keywords.getD []))
              simpa [hs, hj] using hcontra
            · simp [hs, hj]
        · left
          simp [hs]

/-- C5 (amended): every record produced by the builder has keywordsHash and
programHash both equal to the zero sentinel (attestation absent or failed),
or keywordsHash non-zero with attestationStrategy ≠ 'none' — programHash may
independently remain the sentinel in real-zk mode when the journal's program
hash is missing or the placeholder.  The hash is assumed to never output the
sentinel (true of SHA-256 up to a preimage of zero). -/
theorem keywords_zero_sentinel_invariant (H : String → String) (o : BOracles) (env : BEnv)
    (now : Nat) (body : SBody) (hz : ∀ s, H s ≠ ZERO_HASH) (out : SummarizeOut)
    (hok : summarizeCore H o env now body = .ok out) :
    amendedZeroInv out.provenance = true := by
  unfold summarizeCore at hok
  split at hok
  · simp at hok
  · split at hok
    · simp at hok
    · cases hpw : summarizeWithProviderM o (body.provider.getD "mock") body.text body.model with
      | some r =>
        simp only [hpw] at hok
        cases haf : o.addFile r.summary with
        | none => simp [haf] at hok
        | some cid =>
          simp only [haf] at hok
          injection hok with h2
          subst h2
          rcases zkSection_cases H o env body.useZk r.summary hz with
            ⟨hk, hp, hmode⟩ | ⟨hk, huse, hmode⟩
          · simp [amendedZeroInv, hk, hp]
          · rcases hmode with hm | hm <;> rw [huse] at hk hm <;>
              simp [amendedZeroInv, hk, hm, huse]
      | none =>
        simp only [hpw] at hok
        cases haf : o.addFile (summarizeMock body.text).summary with
        | none => simp [haf] at hok
        | some cid =>
          simp only [haf] at hok
          injection hok with h2
          subst h2
          rcases zkSection_cases H o env body.useZk (summarizeMock body.text).summary hz with
            ⟨hk, hp, hmode⟩ | ⟨hk, huse, hmode⟩
          · simp [amendedZeroInv, hk, hp]
          · rcases hmode with hm | hm <;> rw [huse] at hk hm <;>
              simp [amendedZeroInv, hk, hm, huse]

def c5Oracles : BOracles :=
  { net := fun _ _ _ => none
    addFile := fun _ => some "QmContentCid"
    safeAdd := fun _ => some "QmZkCid"
    realZk := some { success := true
                     journalData := some { keywords := some []
                                           programHash := some "<FILLED_BY_HOST>" }
                     proofBytes := some "proofbytes" } }

def c5Env : BEnv := { zkEnabled := true, mockZk := false }

def c5Body : SBody :=
  { text := "aaaa bbbb"
    signer := none
    provider := some "mock"
    model := none
    useZk := true
    params := none }

def c5Run : Except SErr SummarizeOut := summarizeCore sha256Hex c5Oracles c5Env 0 c5Body

theorem builder_zero_sentinel_counterexample :
    (provRes c5Run).map bothZeroOrBothBound = some false ∧
    (provRes c5Run).map Prov.programHash = some ZERO_HASH ∧
    (provRes c5Run).map Prov.attestationStrategy = some "zk-keywords" := by
  refine ⟨?_, ?_, ?_⟩ <;> decide

def c5wOracles : BOracles :=
  { net := fun _ _ _ => none
    addFile := fun _ => some "QmC"
    safeAdd := fun _ => some "QmZ"
    realZk := none }

def c5wBody : SBody :=
  { text := "hi there"
    signer := none
    provider := some "mock"
    model := none
    useZk := false
    params := none }

def c5wRun : Except SErr SummarizeOut := summarizeCore (fun _ => "0xff") c5wOracles c5Env 0 c5wBody

theorem keywords_zero_sentinel_invariant_witness :
    (provRes c5wRun).map amendedZeroInv = some true := by
  cases hr : c5wRun with
  | error e =>
    have hko : c5wRun.isOk = true := by decide
    rw [hr] at hko
    cases hko
  | ok out =>
    have hinv := keywords_zero_sentinel_invariant (fun _ => "0xff") c5wOracles c5Env 0 c5wBody
      (fun s => (by decide : ("0xff" : String) ≠ ZERO_HASH)) out hr
    simp [provRes, hinv]

/-! ## Provider failure falls back to the mock provider (claim C8) -/

/-- C8: a failing provider call never propagates to the caller — the route
falls back to the deterministic mock provider, records warning
`provider_failed_fallback_mock`, and still returns an unsigned record whose
modelId is the fallback provider's "mock-local" (given the content store
accepts the output). -/
theorem provider_failure_falls_back_to_mock (H : String → String) (o : BOracles) (env : BEnv)
    (now : Nat) (body : SBody)
    (htext : (jsTrim body.text == "") = false)
    (hsgn : ((body.signer.getD "unknown") == "") = false)
    (hfail : summarizeWithProviderM o (body.provider.getD "mock") body.text body.model = none)
    (hadd : ∀ s, o.addFile s ≠ none) :
    (summarizeCore H o env now body).isOk = true ∧
    (provRes (summarizeCore H o env now body)).map Prov.modelId = some "mock-local" ∧
    warnContains (summarizeCore H o env now body) "provider_failed_fallback_mock" = true := by
  unfold summarizeCore
  rw [if_neg (by simp [htext]), if_neg (by simp [hsgn])]
  simp only [hfail]
  cases haf : o.addFile (summarizeMock body.text).summary with
  | none => exact absurd haf (hadd _)
  | some cid =>
    simp only [haf]
    refine ⟨rfl, rfl, ?_⟩
    simp [warnContains, List.contains_cons]

def c8Oracles : BOracles :=
  { net := fun _ _ _ => none
    addFile := fun _ => some "QmC"
    safeAdd := fun _ => some "QmZ"
    realZk := none }

def c8Body : SBody :=
  { text := "fallback test"
    signer := none
    provider := some "ollama"
    model := none
    useZk := false
    params := none }

def c8Run : Except SErr SummarizeOut := summarizeCore sha256Hex c8Oracles c5Env 0 c8Body

theorem provider_failure_falls_back_to_mock_witness :
    c8Run.isOk = true ∧
    (provRes c8Run).map Prov.modelId = some "mock-local" ∧
    warnContains c8Run "provider_failed_fallback_mock" = true := by
  exact provider_failure_falls_back_to_mock sha256Hex c8Oracles c5Env 0 c8Body
    (by decide) (by decide) (by decide) (fun s => by simp [c8Oracles])

end AIProof
